import Mathlib

set_option maxHeartbeats 1000000
set_option maxRecDepth 16384

/-!
A verification development for the `classic-to-indev` converter
(`src/main.rs`).  The program is a single-pass pipeline:
configuration bootstrap → configuration parse (after replacing every
`-` of the file text by `_`) → directory preparation → input-path
resolution → level load → conversion → serialization → dual-mode
delivery, with a single `throw` routine providing a uniform fatal-error
exit (diagnostic line, prompt, one line of stdin, exit status 1).

Text is modelled as a list of characters.  The configuration parser
models the external `toml` crate on the schema the program uses
(sections, `key = value` lines, basic strings without escapes, and
unsigned decimal integers); the external collaborators
(`mc_classic::read_level`, `convert::classic_to_js`,
`mc_classic_js::serialize_data` / `write_data` /
`write_local_storage_command`) are modelled as oracles in the run
environment, with their documented filesystem effects.
-/

deriving instance DecidableEq for Except

namespace CTI

/-- Program text as a character list. -/
abbrev Text := List Char

/-- The double-quote character, written via its code point. -/
def quoteChar : Char := Char.ofNat 34

/-- Character-wise action of `String::replace("-", "_")`: the pattern is a
single character, so the replacement is a map over characters. -/
def dashChar (c : Char) : Char := if c = '-' then '_' else c

/-- Embedding of `read_to_string(..).replace("-", "_")` applied to the whole
configuration text (`src/main.rs` line 70). -/
def replaceDash (t : Text) : Text := t.map dashChar

/-- Horizontal whitespace recognised by the parser model. -/
def isSpaceChar (c : Char) : Bool := c = ' ' || c = '\t' || c = '\r'

/-- Strip leading and trailing horizontal whitespace. -/
def trimText (t : Text) : Text :=
  ((t.dropWhile isSpaceChar).reverse.dropWhile isSpaceChar).reverse

/-- Split a text into its lines (separator `'\n'`). -/
def splitLines : Text → List Text
  | [] => [[]]
  | c :: rest =>
    if c = '\n' then [] :: splitLines rest
    else
      match splitLines rest with
      | [] => [[c]]
      | l :: ls => (c :: l) :: ls

/-- Split a text at its first `'='`, returning the parts before and after. -/
def splitFirstEq : Text → Option (Text × Text)
  | [] => none
  | c :: rest =>
    if c = '=' then some ([], rest)
    else
      match splitFirstEq rest with
      | none => none
      | some (a, b) => some (c :: a, b)

/-- Numeric value of a decimal digit string (most significant first). -/
def digitsVal (t : Text) : Nat :=
  t.foldl (fun acc c => acc * 10 + (c.toNat - 48)) 0

/-- A raw TOML value of the configuration schema: a basic string or an
unsigned decimal integer. -/
inductive RawValue
  | str (s : Text)
  | int (n : Nat)
deriving DecidableEq, Repr

/-- Parse a (trimmed) value text. -/
def parseValue (v : Text) : Option RawValue :=
  match v with
  | [] => none
  | c :: rest =>
    if c = quoteChar then
      match rest.reverse with
      | [] => none
      | d :: mid =>
        if d = quoteChar && mid.all (fun x => decide (x ≠ quoteChar)) then
          some (.str mid.reverse)
        else none
    else
      if (c :: rest).all Char.isDigit then some (.int (digitsVal (c :: rest)))
      else none

/-- One parsed configuration line. -/
inductive LineKind
  | blank
  | sectionHead (name : Text)
  | keyVal (key : Text) (val : RawValue)
deriving DecidableEq, Repr

/-- Parse one line of configuration text. -/
def parseLine (l : Text) : Option LineKind :=
  match trimText l with
  | [] => some .blank
  | c :: rest =>
    if c = '[' then
      match rest.reverse with
      | [] => none
      | d :: mid => if d = ']' then some (.sectionHead mid.reverse) else none
    else
      match splitFirstEq (c :: rest) with
      | none => none
      | some (k, v) =>
        match trimText k with
        | [] => none
        | k0 :: ks =>
          match parseValue (trimText v) with
          | none => none
          | some rv => some (.keyVal (k0 :: ks) rv)

/-- An assignment: enclosing section name, key, raw value. -/
abbrev Assign := Text × Text × RawValue

/-- Walk the lines collecting assignments, tracking the current section. -/
def collectAssigns : List Text → Text → Option (List Assign)
  | [], _ => some []
  | l :: ls, sec =>
    match parseLine l with
    | none => none
    | some .blank => collectAssigns ls sec
    | some (.sectionHead n) => collectAssigns ls n
    | some (.keyVal k v) =>
      match collectAssigns ls sec with
      | none => none
      | some rest => some ((sec, k, v) :: rest)

/-- The assignment list of a configuration text (before schema checking). -/
def rawAssigns (t : Text) : Option (List Assign) :=
  collectAssigns (splitLines t) []

/-- First assignment of a section/key pair. -/
def lookupAssign : List Assign → Text → Text → Option RawValue
  | [], _, _ => none
  | (s, k, v) :: rest, sec, key =>
    if s = sec && k = key then some v else lookupAssign rest sec key

/-- Mirror of the Rust `Input` settings struct (`src/main.rs` lines 26-30). -/
structure Input where
  input_folder : Text
  input_file : Text
deriving DecidableEq, Repr

/-- Mirror of the Rust `Output` settings struct (`src/main.rs` lines 32-38). -/
structure Output where
  output_mode : Nat
  output_folder : Text
  output_file : Text
  output_website : Text
deriving DecidableEq, Repr

/-- Mirror of the Rust `Config` struct (`src/main.rs` lines 20-24). -/
structure Config where
  input_settings : Input
  output_settings : Output
deriving DecidableEq, Repr

/-- Failure of the configuration parse (the `toml::de::Error` of the source,
payload abstracted to the failure shape). -/
inductive TomlErr
  | badLine
  | missingField
  | modeOutOfRange
deriving DecidableEq, Repr

def secInText : Text := "input_settings".toList
def secOutText : Text := "output_settings".toList
def keyInFolder : Text := "input_folder".toList
def keyInFile : Text := "input_file".toList
def keyMode : Text := "output_mode".toList
def keyOutFolder : Text := "output_folder".toList
def keyOutFile : Text := "output_file".toList
def keyWebsite : Text := "output_website".toList

/-- Look up a string-valued field. -/
def getStr (l : List Assign) (sec key : Text) : Option Text :=
  match lookupAssign l sec key with
  | some (.str s) => some s
  | _ => none

/-- Look up an integer-valued field. -/
def getInt (l : List Assign) (sec key : Text) : Option Nat :=
  match lookupAssign l sec key with
  | some (.int n) => some n
  | _ => none

/-- Assemble a `Config` from the assignments; `output_mode` is deserialized
into a `u8`, so values above 255 are a deserialization error. -/
def buildConfig (l : List Assign) : Except TomlErr Config :=
  match getStr l secInText keyInFolder, getStr l secInText keyInFile,
        getInt l secOutText keyMode, getStr l secOutText keyOutFolder,
        getStr l secOutText keyOutFile, getStr l secOutText keyWebsite with
  | some f, some fi, some m, some of0, some ofi, some w =>
    if m ≤ 255 then .ok ⟨⟨f, fi⟩, ⟨m, of0, ofi, w⟩⟩
    else .error .modeOutOfRange
  | _, _, _, _, _, _ => .error .missingField

/-- Model of `toml::from_str::<Config>` on the program's schema. -/
def tomlFromStr (t : Text) : Except TomlErr Config :=
  match rawAssigns t with
  | none => .error .badLine
  | some l => buildConfig l

/-- Embedding of the configuration-loading expression of `main`
(`src/main.rs` lines 70-71): replace every `-` of the whole text by `_`,
then parse. -/
def loadConfig (t : Text) : Except TomlErr Config :=
  tomlFromStr (replaceDash t)

/-- The default configuration text written by `build_settings`
(`src/main.rs` lines 140-159), with its hyphenated keys. -/
def defaultConfigText : Text :=
  ("[input-settings]\n" ++
   "input-folder = \"input\"\n" ++
   "input-file = \"level.dat\"\n\n" ++
   "[output-settings]\n" ++
   "output-mode = 0\n" ++
   "output-folder = \"output\"\n" ++
   "output-file = \"localStorage.js\"\n" ++
   "output-website = \"https://classic.minecraft.net\"").toList

/-- The same configuration written with underscored keys. -/
def underscoreConfigText : Text :=
  ("[input_settings]\n" ++
   "input_folder = \"input\"\n" ++
   "input_file = \"level.dat\"\n\n" ++
   "[output_settings]\n" ++
   "output_mode = 0\n" ++
   "output_folder = \"output\"\n" ++
   "output_file = \"localStorage.js\"\n" ++
   "output_website = \"https://classic.minecraft.net\"").toList

/-- The `Config` value both spellings of the default file denote. -/
def defaultConfigValue : Config :=
  ⟨⟨"input".toList, "level.dat".toList⟩,
   ⟨0, "output".toList, "localStorage.js".toList,
    "https://classic.minecraft.net".toList⟩⟩

example : loadConfig defaultConfigText = .ok defaultConfigValue := by decide

example : loadConfig underscoreConfigText = .ok defaultConfigValue := by decide

/-! ## The run model

`main` (`src/main.rs` lines 64-137) is embedded as a function of an
environment: the initial filesystem plus one oracle per external or
fallible call.  The run produces an event trace, the final filesystem,
and a result (exit status, or a panic for the `unwrap`/`expect` sites).
-/

/-- A filesystem entry: a regular file with contents, or a directory. -/
inductive Entry
  | file (content : Text)
  | dir
deriving DecidableEq, Repr

/-- The filesystem: an association list from path to entry, newest first. -/
abbrev FS := List (Text × Entry)

/-- Path lookup (first match). -/
def fsLookup : FS → Text → Option Entry
  | [], _ => none
  | (q, e) :: rest, p => if q = p then some e else fsLookup rest p

/-- Embedding of `fs::exists`. -/
def fsExists (fs : FS) (p : Text) : Bool := (fsLookup fs p).isSome

/-- Create or overwrite a path. -/
def fsSet (fs : FS) (p : Text) (e : Entry) : FS := (p, e) :: fs

/-- The well-known configuration path. -/
def cfgPath : Text := "config.toml".toList

/-- The path separator appended between folder and file names. -/
def slash : Text := ['/']

/-- The error enum of the source (`GeneralError`, `src/main.rs` lines
40-61); opaque payloads of the external error types are numbers. -/
inductive GeneralError
  | TOMLError (e : TomlErr)
  | FileError (e : Nat)
  | ClassicError (e : Nat)
  | ConversionError (e : Nat)
  | WriteError (e : Nat)
  | MissingFile (p : Text)
  | InvalidMode (v : Nat)
deriving DecidableEq, Repr

/-- Observable events of a run, in order. -/
inductive Ev
  | printOut (s : Text)
  | printErr (e : GeneralError)
  | readLine
  | createDir (p : Text)
  | loadLevel (p : Text)
  | convert
  | serialize
  | writeStorage (folder pay meta web : Text)
  | writeScript (path pay meta : Text)
deriving DecidableEq, Repr

def promptMsg : Text := "Press Enter to Exit".toList
def loadingMsg : Text := "Loading level".toList
def convertingMsg : Text := "Converting level".toList
def serializingMsg : Text := "Serializing level".toList
def writingMsg : Text := "Writing level".toList

/-- Result of a run: a process exit status, or a panic (an `unwrap` of an
I/O failure, which bypasses the `throw` routine entirely). -/
inductive RRes
  | exit (code : Nat)
  | panicked
deriving DecidableEq, Repr

/-- A finished run: its event trace, final filesystem and result. -/
structure RunOut where
  trace : List Ev
  fs : FS
  res : RRes
deriving DecidableEq, Repr

/-- The run environment: initial filesystem plus one oracle per fallible
or external call of `main`. -/
structure Env where
  fs0 : FS
  bootstrapR : Except Nat Unit
  readTextOk : Bool
  createDirR : Text → Except Nat Unit
  readLevelR : Except Nat Nat
  convertR : Except Nat Nat
  serializedR : Text × Text
  writeDataR : Except Nat Unit
  writeScriptR : Except Nat Unit

/-- Modelled from the spec: the storage-file writer of the external
`mc_classic_js` crate persists the two artifacts into a key-value storage
file under the output folder, keyed by the website string. -/
def storagePath (folder : Text) : Text := folder ++ slash ++ "storage".toList

/-- Modelled from the spec: contents of the storage file (opaque encoding
of the two artifacts and the partition key). -/
def storageContent (pay meta web : Text) : Text := web ++ pay ++ meta

/-- Modelled from the spec: the script file emitted by
`write_local_storage_command` contains browser-console commands injecting
both serialized strings. -/
def mkScript (pay meta : Text) : Text :=
  "localStorage.setItem(".toList ++ pay ++ ");\nlocalStorage.setItem(".toList
    ++ meta ++ ");\n".toList

/-- The uniform tail that `throw` (`src/main.rs` lines 162-167) appends to
every fatal run: one diagnostic on the error stream, the prompt, one line
of stdin. -/
def uniformSuffix (e : GeneralError) : List Ev :=
  [.printErr e, .printOut promptMsg, .readLine]

/-- A run terminated by `throw e`: exit status 1. -/
def throwRun (tr : List Ev) (fs : FS) (e : GeneralError) : RunOut :=
  ⟨tr ++ uniformSuffix e, fs, .exit 1⟩

/-- A run reaching the end of `main`: prompt, one line of stdin, exit 0. -/
def finishRun (tr : List Ev) (fs : FS) : RunOut :=
  ⟨tr ++ [.printOut promptMsg, .readLine], fs, .exit 0⟩

/-- Embedding of the bootstrap step (`src/main.rs` lines 66-68 and
`build_settings`): when `config.toml` is absent it is created; on a write
failure the opened (empty) file remains and the error is thrown. -/
def bootstrapStep (env : Env) (fs : FS) : FS × Option GeneralError :=
  if fsExists fs cfgPath then (fs, none)
  else
    match env.bootstrapR with
    | .ok _ => (fsSet fs cfgPath (.file defaultConfigText), none)
    | .error e => (fsSet fs cfgPath (.file []), some (.FileError e))

/-- Embedding of one directory-ensuring step (`src/main.rs` lines 79-84):
`if !fs::exists(p) { fs::create_dir(p) }`. -/
def ensureDirStep (env : Env) (fs : FS) (p : Text) :
    Except Nat (FS × List Ev) :=
  if fsExists fs p then .ok (fs, [])
  else
    match env.createDirR p with
    | .ok _ => .ok (fsSet fs p .dir, [.createDir p])
    | .error e => .error e

/-- The resolved input path, `input_folder + "/" + input_file`
(`src/main.rs` line 88). -/
def inputPath (c : Config) : Text :=
  c.input_settings.input_folder ++ slash ++ c.input_settings.input_file

/-- The script-mode output path, `output_folder + "/" + output_file`
(`src/main.rs` line 124). -/
def scriptPath (c : Config) : Text :=
  c.output_settings.output_folder ++ slash ++ c.output_settings.output_file

/-- Trace prefix after directory preparation and the `Loading level` print. -/
def trPrep (ev1 ev2 : List Ev) : List Ev :=
  ev1 ++ ev2 ++ [Ev.printOut loadingMsg]

/-- Trace prefix after the level-load call. -/
def trLoad (ev1 ev2 : List Ev) (p : Text) : List Ev :=
  trPrep ev1 ev2 ++ [Ev.loadLevel p]

/-- Trace prefix after the conversion call. -/
def trConv (ev1 ev2 : List Ev) (p : Text) : List Ev :=
  trLoad ev1 ev2 p ++ [Ev.printOut convertingMsg, Ev.convert]

/-- Trace prefix after serialization and the `Writing level` print. -/
def trSer (ev1 ev2 : List Ev) (p : Text) : List Ev :=
  trConv ev1 ev2 p ++ [Ev.printOut serializingMsg, Ev.serialize,
    Ev.printOut writingMsg]

/-- The delivery dispatch (`src/main.rs` lines 112-131): one `match` on
`output_mode` with arms `0`, `1` and `_`.  In the `1` arm the result of
`write_local_storage_command` is discarded (`_ =` with no `match`), so a
script-write failure falls through to the success epilogue. -/
def deliveryOutcome (env : Env) (c : Config) (ev1 ev2 : List Ev)
    (fs3 : FS) : RunOut :=
  match c.output_settings.output_mode with
  | 0 =>
    match env.writeDataR with
    | .error e =>
      throwRun (trSer ev1 ev2 (inputPath c) ++
        [Ev.writeStorage c.output_settings.output_folder
          env.serializedR.1 env.serializedR.2
          c.output_settings.output_website]) fs3 (.WriteError e)
    | .ok _ =>
      finishRun (trSer ev1 ev2 (inputPath c) ++
        [Ev.writeStorage c.output_settings.output_folder
          env.serializedR.1 env.serializedR.2
          c.output_settings.output_website])
        (fsSet fs3 (storagePath c.output_settings.output_folder)
          (.file (storageContent env.serializedR.1 env.serializedR.2
            c.output_settings.output_website)))
  | 1 =>
    match env.writeScriptR with
    | .error _e =>
      finishRun (trSer ev1 ev2 (inputPath c) ++
        [Ev.writeScript (scriptPath c)
          env.serializedR.1 env.serializedR.2]) fs3
    | .ok _ =>
      finishRun (trSer ev1 ev2 (inputPath c) ++
        [Ev.writeScript (scriptPath c)
          env.serializedR.1 env.serializedR.2])
        (fsSet fs3 (scriptPath c)
          (.file (mkScript env.serializedR.1 env.serializedR.2)))
  | m + 2 =>
    throwRun (trSer ev1 ev2 (inputPath c)) fs3 (.InvalidMode (m + 2))

/-- Embedding of `main` (`src/main.rs` lines 64-137).  Faithful points:
the whole-text dash replacement before parsing; the existence check of
the resolved input path after directory preparation; and the delivery
dispatch `deliveryOutcome` above. -/
def run (env : Env) : RunOut :=
  match bootstrapStep env env.fs0 with
  | (fs1, some e) => throwRun [] fs1 e
  | (fs1, none) =>
    match fsLookup fs1 cfgPath with
    | none => ⟨[], fs1, .panicked⟩
    | some .dir => ⟨[], fs1, .panicked⟩
    | some (.file t) =>
      if env.readTextOk then
        match loadConfig t with
        | .error e => throwRun [] fs1 (.TOMLError e)
        | .ok config =>
          match ensureDirStep env fs1 config.input_settings.input_folder with
          | .error e => throwRun [] fs1 (.FileError e)
          | .ok (fs2, ev1) =>
            match ensureDirStep env fs2 config.output_settings.output_folder with
            | .error e => throwRun ev1 fs2 (.FileError e)
            | .ok (fs3, ev2) =>
              if fsExists fs3 (inputPath config) then
                match env.readLevelR with
                | .error e =>
                  throwRun (trLoad ev1 ev2 (inputPath config)) fs3
                    (.ClassicError e)
                | .ok _lvl =>
                  match env.convertR with
                  | .error e =>
                    throwRun (trConv ev1 ev2 (inputPath config)) fs3
                      (.ConversionError e)
                  | .ok _js =>
                    deliveryOutcome env config ev1 ev2 fs3
              else
                throwRun (trPrep ev1 ev2) fs3
                  (.MissingFile (inputPath config))
      else ⟨[], fs1, .panicked⟩

/-! ## Trace predicates and basic filesystem lemmas -/

/-- Is the event a diagnostic on the error stream? -/
def isErrEv : Ev → Bool
  | .printErr _ => true
  | _ => false

/-- Is the event a read of one line of stdin? -/
def isReadEv : Ev → Bool
  | .readLine => true
  | _ => false

/-- Events allowed before the terminal reporting step. -/
def cleanEv (e : Ev) : Bool := !isErrEv e && !isReadEv e

/-- Is the event an output-artifact write call? -/
def isWriteEv : Ev → Bool
  | .writeStorage _ _ _ _ => true
  | .writeScript _ _ _ => true
  | _ => false

/-- Is the event the visible action of one of the three delivery branches
(direct write, script write, invalid-mode rejection)? -/
def isDeliveryEv : Ev → Bool
  | .writeStorage _ _ _ _ => true
  | .writeScript _ _ _ => true
  | .printErr (.InvalidMode _) => true
  | _ => false

/-- Is the event a directory creation? -/
def isCreateEv : Ev → Bool
  | .createDir _ => true
  | _ => false

/-- Is the event an access to a file (input load or artifact write)? -/
def isAccessEv : Ev → Bool
  | .loadLevel _ => true
  | .writeStorage _ _ _ _ => true
  | .writeScript _ _ _ => true
  | _ => false

theorem fsLookup_fsSet_self (fs : FS) (p : Text) (e : Entry) :
    fsLookup (fsSet fs p e) p = some e := by
  simp [fsLookup, fsSet]

theorem fsLookup_fsSet_ne (fs : FS) (p q : Text) (e : Entry) (h : q ≠ p) :
    fsLookup (fsSet fs q e) p = fsLookup fs p := by
  simp [fsLookup, fsSet, h]

theorem fsExists_fsSet_of (fs : FS) (p q : Text) (e : Entry)
    (h : fsExists fs p = true) : fsExists (fsSet fs q e) p = true := by
  by_cases hqp : q = p
  · subst hqp; simp [fsExists, fsLookup_fsSet_self]
  · simpa [fsExists, fsLookup_fsSet_ne fs p q e hqp] using h

/-- The uniform fatal-error contract of the program (spec section 7):
whenever a diagnostic is printed, the run ends with exactly the
diagnostic / prompt / one-line-of-stdin tail and exit status 1; exit
status 0 happens only when the whole pipeline ran (a serialization and a
delivery action are in the trace) with no diagnostic at all. -/
def uniformOutcome (out : RunOut) : Prop :=
  (∀ e : GeneralError, Ev.printErr e ∈ out.trace →
     out.res = .exit 1 ∧
     ∃ pre, out.trace = pre ++ uniformSuffix e ∧ pre.all cleanEv = true) ∧
  (out.res = .exit 0 →
     Ev.serialize ∈ out.trace ∧ (∃ d ∈ out.trace, isDeliveryEv d = true) ∧
     out.trace.all (fun ev => !isErrEv ev) = true)

theorem all_notErr_of_clean (tr : List Ev) (h : tr.all cleanEv = true) :
    tr.all (fun ev => !isErrEv ev) = true := by
  rw [List.all_eq_true] at h ⊢
  intro x hx
  have hc := h x hx
  simp only [cleanEv, Bool.and_eq_true, Bool.not_eq_true'] at hc
  simp [hc.1]

theorem uniformOutcome_throwRun (tr : List Ev) (fs : FS) (e0 : GeneralError)
    (h : tr.all cleanEv = true) : uniformOutcome (throwRun tr fs e0) := by
  constructor
  · intro e he
    have he' : Ev.printErr e ∈ tr ++ uniformSuffix e0 := he
    rcases List.mem_append.mp he' with h1 | h1
    · have hc := List.all_eq_true.mp h _ h1
      simp [cleanEv, isErrEv] at hc
    · simp only [uniformSuffix, List.mem_cons, List.not_mem_nil,
        or_false] at h1
      rcases h1 with h2 | h2 | h2
      · cases h2
        exact ⟨rfl, tr, rfl, h⟩
      · cases h2
      · cases h2
  · intro h0
    simp [throwRun] at h0

theorem uniformOutcome_finishRun (tr : List Ev) (fs : FS)
    (hclean : tr.all cleanEv = true) (hser : Ev.serialize ∈ tr)
    (hdel : ∃ d ∈ tr, isDeliveryEv d = true) :
    uniformOutcome (finishRun tr fs) := by
  constructor
  · intro e he
    have he' : Ev.printErr e ∈
        tr ++ [Ev.printOut promptMsg, Ev.readLine] := he
    rcases List.mem_append.mp he' with h1 | h1
    · have hc := List.all_eq_true.mp hclean _ h1
      simp [cleanEv, isErrEv] at hc
    · simp only [List.mem_cons, List.not_mem_nil, or_false] at h1
      rcases h1 with h2 | h2
      · cases h2
      · cases h2
  · intro _
    refine ⟨List.mem_append.mpr (Or.inl hser), ?_, ?_⟩
    · rcases hdel with ⟨d, hd, hdv⟩
      exact ⟨d, List.mem_append.mpr (Or.inl hd), hdv⟩
    · have h1 := all_notErr_of_clean tr hclean
      show (tr ++ [Ev.printOut promptMsg, Ev.readLine]).all
        (fun ev => !isErrEv ev) = true
      rw [List.all_append, h1]
      decide

theorem uniformOutcome_panic (tr : List Ev) (fs : FS)
    (h : tr = []) : uniformOutcome ⟨tr, fs, .panicked⟩ := by
  subst h
  constructor
  · intro e he
    cases he
  · intro h0
    simp at h0

/-- Characterization of one directory-ensuring step: either the path
already exists and nothing happens, or it is absent, creation succeeds,
and exactly one directory entry and one event are produced. -/
theorem ensureDirStep_spec {env : Env} {fs : FS} {p : Text} {fs' : FS}
    {evs : List Ev} (h : ensureDirStep env fs p = .ok (fs', evs)) :
    (fsExists fs p = true ∧ fs' = fs ∧ evs = []) ∨
    (fsExists fs p = false ∧ env.createDirR p = .ok () ∧
      fs' = fsSet fs p .dir ∧ evs = [.createDir p]) := by
  unfold ensureDirStep at h
  split at h
  · cases h
    exact Or.inl ⟨by assumption, rfl, rfl⟩
  · rename_i hex
    split at h
    · rename_i u hcr
      cases u
      cases h
      exact Or.inr ⟨by simpa using hex, hcr, rfl, rfl⟩
    · cases h

theorem ensureDirStep_clean {env : Env} {fs : FS} {p : Text} {fs' : FS}
    {evs : List Ev} (h : ensureDirStep env fs p = .ok (fs', evs)) :
    evs.all cleanEv = true := by
  rcases ensureDirStep_spec h with ⟨_, _, rfl⟩ | ⟨_, _, _, rfl⟩ <;> rfl

theorem append_one_clean {l : List Ev} {w : Ev}
    (h : l.all cleanEv = true) (hw : cleanEv w = true) :
    (l ++ [w]).all cleanEv = true := by
  rw [List.all_append, h]
  simp [hw]

theorem trPrep_clean {ev1 ev2 : List Ev} (h1 : ev1.all cleanEv = true)
    (h2 : ev2.all cleanEv = true) : (trPrep ev1 ev2).all cleanEv = true := by
  simp [trPrep, List.all_append, h1, h2, cleanEv, isErrEv, isReadEv]

theorem trLoad_clean {ev1 ev2 : List Ev} {p : Text}
    (h1 : ev1.all cleanEv = true) (h2 : ev2.all cleanEv = true) :
    (trLoad ev1 ev2 p).all cleanEv = true := by
  simp [trLoad, List.all_append, trPrep_clean h1 h2, cleanEv, isErrEv,
    isReadEv]

theorem trConv_clean {ev1 ev2 : List Ev} {p : Text}
    (h1 : ev1.all cleanEv = true) (h2 : ev2.all cleanEv = true) :
    (trConv ev1 ev2 p).all cleanEv = true := by
  simp [trConv, List.all_append, trLoad_clean h1 h2, cleanEv, isErrEv,
    isReadEv]

theorem trSer_clean {ev1 ev2 : List Ev} {p : Text}
    (h1 : ev1.all cleanEv = true) (h2 : ev2.all cleanEv = true) :
    (trSer ev1 ev2 p).all cleanEv = true := by
  simp [trSer, List.all_append, trConv_clean h1 h2, cleanEv, isErrEv,
    isReadEv]

theorem uniformOutcome_finish_del (ev1 ev2 : List Ev) (p : Text) (w : Ev)
    (fs : FS) (h1 : ev1.all cleanEv = true) (h2 : ev2.all cleanEv = true)
    (hw : cleanEv w = true) (hd : isDeliveryEv w = true) :
    uniformOutcome (finishRun (trSer ev1 ev2 p ++ [w]) fs) := by
  apply uniformOutcome_finishRun
  · exact append_one_clean (trSer_clean h1 h2) hw
  · simp [trSer, trConv, trLoad, trPrep]
  · exact ⟨w, by simp, hd⟩

/-- C2: for every error kind of the pipeline, the user-visible behavior is
uniform — one diagnostic line on the error stream, the prompt, one blocking
line of stdin, exit status 1 — and exit status 0 occurs only on full
pipeline completion (serialization done, a delivery branch executed, no
diagnostic printed). -/
theorem C2_uniform_fatal_error_behavior (env : Env) :
    uniformOutcome (run env) := by
  unfold run deliveryOutcome
  repeat' split
  all_goals first
    | exact uniformOutcome_panic _ _ rfl
    | exact uniformOutcome_throwRun _ _ _ rfl
    | exact uniformOutcome_throwRun _ _ _ (ensureDirStep_clean ‹_›)
    | exact uniformOutcome_throwRun _ _ _
        (trPrep_clean (ensureDirStep_clean ‹_›) (ensureDirStep_clean ‹_›))
    | exact uniformOutcome_throwRun _ _ _
        (trLoad_clean (ensureDirStep_clean ‹_›) (ensureDirStep_clean ‹_›))
    | exact uniformOutcome_throwRun _ _ _
        (trConv_clean (ensureDirStep_clean ‹_›) (ensureDirStep_clean ‹_›))
    | exact uniformOutcome_throwRun _ _ _
        (trSer_clean (ensureDirStep_clean ‹_›) (ensureDirStep_clean ‹_›))
    | exact uniformOutcome_throwRun _ _ _
        (append_one_clean
          (trSer_clean (ensureDirStep_clean ‹_›) (ensureDirStep_clean ‹_›))
          rfl)
    | exact uniformOutcome_finish_del _ _ _ _ _
        (ensureDirStep_clean ‹_›) (ensureDirStep_clean ‹_›) rfl rfl

/-! ## Concrete environments used as claim evidence -/

/-- A script-mode (`output_mode = 1`) configuration file. -/
def mode1ConfigText : Text :=
  ("[input_settings]\n" ++
   "input_folder = \"input\"\n" ++
   "input_file = \"level.dat\"\n\n" ++
   "[output_settings]\n" ++
   "output_mode = 1\n" ++
   "output_folder = \"output\"\n" ++
   "output_file = \"inject.js\"\n" ++
   "output_website = \"https://example.test\"").toList

/-- A filesystem with the script-mode configuration, the input folder and
file, and the output folder all present. -/
def fsScript : FS :=
  [(cfgPath, Entry.file mode1ConfigText),
   ("input".toList, Entry.dir),
   ("input".toList ++ slash ++ "level.dat".toList, Entry.file ['x']),
   ("output".toList, Entry.dir)]

/-- Script-mode run in which the script-file write fails: every oracle
succeeds except `write_local_storage_command`. -/
def envScriptFail : Env :=
  ⟨fsScript, .ok (), true, fun _ => .ok (), .ok 0, .ok 0,
   ("PAY".toList, "META".toList), .ok (), .error 7⟩

/-- The script-mode output path of that configuration. -/
def scriptOutPath : Text := "output".toList ++ slash ++ "inject.js".toList

/-- C1: the claim states that in script mode a failure of the script-file
write surfaces as a fatal `FileError` (uniform error exit, status 1),
never as silent success.  The code (`src/main.rs` lines 122-126) instead
discards the `Result` of `write_local_storage_command` with `_ =`: at a
concrete input where that write fails, the run prints no diagnostic,
creates no script file, and exits with status 0.  The claim matches the
spec's intent (`GeneralError::FileError` exists precisely for I/O
failures), so this is recorded as a code bug. -/
theorem C1_script_write_failure_is_silent_success :
    (run envScriptFail).res = .exit 0 ∧
    (run envScriptFail).trace.all (fun ev => !isErrEv ev) = true ∧
    Ev.writeScript scriptOutPath "PAY".toList "META".toList ∈
      (run envScriptFail).trace ∧
    fsLookup (run envScriptFail).fs scriptOutPath = none := by
  decide

/-! ## Reduction of `run` on a pipeline that reaches delivery -/

theorem bootstrapStep_of_exists (env : Env) (fs : FS)
    (h : fsExists fs cfgPath = true) : bootstrapStep env fs = (fs, none) := by
  simp [bootstrapStep, h]

theorem self_ne_append {α : Type} (a b : List α) (hb : b ≠ []) :
    a ≠ a ++ b := by
  intro h
  have hlen := congrArg List.length h
  simp only [List.length_append] at hlen
  have : b.length = 0 := by omega
  exact hb (List.eq_nil_of_length_eq_zero this)

theorem folder_ne_inputPath (c : Config) :
    c.input_settings.input_folder ≠ inputPath c := by
  have h : inputPath c =
      c.input_settings.input_folder ++ (slash ++ c.input_settings.input_file) := by
    simp [inputPath, List.append_assoc]
  rw [h]
  exact self_ne_append _ _ (by simp [slash])

/-- When the configuration file is present and readable, its parse
succeeds, directory creation succeeds, the resolved input path exists,
and the loader and converter succeed, the run reduces to the delivery
dispatch, with the preparation events and filesystem characterized. -/
theorem run_delivery_eq {env : Env} {t : Text} {c : Config}
    (hcfg : fsLookup env.fs0 cfgPath = some (.file t))
    (hread : env.readTextOk = true)
    (hparse : loadConfig t = .ok c)
    (hdir : ∀ p, env.createDirR p = .ok ())
    (hin : fsExists env.fs0 (inputPath c) = true)
    (hlvl : ∃ v, env.readLevelR = .ok v)
    (hcv : ∃ w, env.convertR = .ok w) :
    ∃ ev1 ev2 fs3,
      (ev1 = [] ∨ ev1 = [Ev.createDir c.input_settings.input_folder]) ∧
      (ev2 = [] ∨ ev2 = [Ev.createDir c.output_settings.output_folder]) ∧
      (∀ q, q ≠ c.input_settings.input_folder →
        q ≠ c.output_settings.output_folder →
        fsLookup fs3 q = fsLookup env.fs0 q) ∧
      run env = deliveryOutcome env c ev1 ev2 fs3 := by
  obtain ⟨v, hv⟩ := hlvl
  obtain ⟨w, hw⟩ := hcv
  have hex : fsExists env.fs0 cfgPath = true := by simp [fsExists, hcfg]
  have hb := bootstrapStep_of_exists env env.fs0 hex
  by_cases h1 : fsExists env.fs0 c.input_settings.input_folder = true
  · have he1 : ensureDirStep env env.fs0 c.input_settings.input_folder =
        .ok (env.fs0, []) := by simp [ensureDirStep, h1]
    by_cases h2 : fsExists env.fs0 c.output_settings.output_folder = true
    · have he2 : ensureDirStep env env.fs0 c.output_settings.output_folder =
          .ok (env.fs0, []) := by simp [ensureDirStep, h2]
      refine ⟨[], [], env.fs0, Or.inl rfl, Or.inl rfl,
        fun q _ _ => rfl, ?_⟩
      simp only [run, hb, hcfg, hread, if_true, hparse, he1, he2, hin,
        hv, hw]
    · have he2 : ensureDirStep env env.fs0 c.output_settings.output_folder =
          .ok (fsSet env.fs0 c.output_settings.output_folder .dir,
            [.createDir c.output_settings.output_folder]) := by
        simp [ensureDirStep, h2, hdir]
      have hin3 : fsExists
          (fsSet env.fs0 c.output_settings.output_folder .dir)
          (inputPath c) = true :=
        fsExists_fsSet_of _ _ _ _ hin
      refine ⟨[], [.createDir c.output_settings.output_folder],
        fsSet env.fs0 c.output_settings.output_folder .dir,
        Or.inl rfl, Or.inr rfl, ?_, ?_⟩
      · intro q _ hq2
        exact fsLookup_fsSet_ne _ _ _ _ (fun h => hq2 h.symm)
      · simp only [run, hb, hcfg, hread, if_true, hparse, he1, he2, hin3,
          hv, hw]
  · have he1 : ensureDirStep env env.fs0 c.input_settings.input_folder =
        .ok (fsSet env.fs0 c.input_settings.input_folder .dir,
          [.createDir c.input_settings.input_folder]) := by
      simp [ensureDirStep, h1, hdir]
    have hin2 : fsExists
        (fsSet env.fs0 c.input_settings.input_folder .dir)
        (inputPath c) = true :=
      fsExists_fsSet_of _ _ _ _ hin
    by_cases h2 : fsExists
        (fsSet env.fs0 c.input_settings.input_folder .dir)
        c.output_settings.output_folder = true
    · have he2 : ensureDirStep env
          (fsSet env.fs0 c.input_settings.input_folder .dir)
          c.output_settings.output_folder =
          .ok (fsSet env.fs0 c.input_settings.input_folder .dir, []) := by
        simp [ensureDirStep, h2]
      refine ⟨[.createDir c.input_settings.input_folder], [],
        fsSet env.fs0 c.input_settings.input_folder .dir,
        Or.inr rfl, Or.inl rfl, ?_, ?_⟩
      · intro q hq1 _
        exact fsLookup_fsSet_ne _ _ _ _ (fun h => hq1 h.symm)
      · simp only [run, hb, hcfg, hread, if_true, hparse, he1, he2, hin2,
          hv, hw]
    · have he2 : ensureDirStep env
          (fsSet env.fs0 c.input_settings.input_folder .dir)
          c.output_settings.output_folder =
          .ok (fsSet (fsSet env.fs0 c.input_settings.input_folder .dir)
            c.output_settings.output_folder .dir,
            [.createDir c.output_settings.output_folder]) := by
        simp [ensureDirStep, h2, hdir]
      have hin3 : fsExists
          (fsSet (fsSet env.fs0 c.input_settings.input_folder .dir)
            c.output_settings.output_folder .dir)
          (inputPath c) = true :=
        fsExists_fsSet_of _ _ _ _ (fsExists_fsSet_of _ _ _ _ hin)
      refine ⟨[.createDir c.input_settings.input_folder],
        [.createDir c.output_settings.output_folder],
        fsSet (fsSet env.fs0 c.input_settings.input_folder .dir)
          c.output_settings.output_folder .dir,
        Or.inr rfl, Or.inr rfl, ?_, ?_⟩
      · intro q hq1 hq2
        rw [fsLookup_fsSet_ne _ _ _ _ (fun h => hq2 h.symm)]
        exact fsLookup_fsSet_ne _ _ _ _ (fun h => hq1 h.symm)
      · simp only [run, hb, hcfg, hread, if_true, hparse, he1, he2, hin3,
          hv, hw]

/-- C5: for every `output_mode` value not in {0,1}, delivery fails with
`InvalidMode` carrying exactly the offending value, the delivery stage
performs no write call and leaves the filesystem untouched (apart from
the earlier directory preparation), and the process exits with status 1. -/
theorem C5_invalid_mode_uniformly_rejected (env : Env) (t : Text)
    (c : Config)
    (hcfg : fsLookup env.fs0 cfgPath = some (.file t))
    (hread : env.readTextOk = true)
    (hparse : loadConfig t = .ok c)
    (hdir : ∀ p, env.createDirR p = .ok ())
    (hin : fsExists env.fs0 (inputPath c) = true)
    (hlvl : ∃ v, env.readLevelR = .ok v)
    (hcv : ∃ w, env.convertR = .ok w)
    (hm0 : c.output_settings.output_mode ≠ 0)
    (hm1 : c.output_settings.output_mode ≠ 1) :
    (run env).res = .exit 1 ∧
    Ev.printErr (.InvalidMode c.output_settings.output_mode) ∈
      (run env).trace ∧
    (run env).trace.all (fun ev => !isWriteEv ev) = true ∧
    (∀ q, q ≠ c.input_settings.input_folder →
      q ≠ c.output_settings.output_folder →
      fsLookup (run env).fs q = fsLookup env.fs0 q) := by
  obtain ⟨ev1, ev2, fs3, hev1, hev2, hframe, hrun⟩ :=
    run_delivery_eq hcfg hread hparse hdir hin hlvl hcv
  obtain ⟨k, hk⟩ : ∃ k, c.output_settings.output_mode =
      Nat.succ (Nat.succ k) :=
    ⟨c.output_settings.output_mode - 2, by omega⟩
  rw [hrun]
  simp only [deliveryOutcome, hk]
  refine ⟨rfl, ?_, ?_, ?_⟩
  · simp [throwRun, uniformSuffix]
  · rcases hev1 with rfl | rfl <;> rcases hev2 with rfl | rfl <;>
      simp [throwRun, uniformSuffix, trSer, trConv, trLoad, trPrep,
        List.all_append, isWriteEv]
  · exact hframe

/-- When the configuration loads but the resolved input path is absent
(and distinct from the two prepared folder paths, which directory
creation alone could otherwise materialize), the run reduces to the
missing-file throw. -/
theorem run_missing_eq {env : Env} {t : Text} {c : Config}
    (hcfg : fsLookup env.fs0 cfgPath = some (.file t))
    (hread : env.readTextOk = true)
    (hparse : loadConfig t = .ok c)
    (hdir : ∀ p, env.createDirR p = .ok ())
    (hniP : fsLookup env.fs0 (inputPath c) = none)
    (hneOut : c.output_settings.output_folder ≠ inputPath c) :
    ∃ ev1 ev2 fs3,
      (ev1 = [] ∨ ev1 = [Ev.createDir c.input_settings.input_folder]) ∧
      (ev2 = [] ∨ ev2 = [Ev.createDir c.output_settings.output_folder]) ∧
      run env = throwRun (trPrep ev1 ev2) fs3 (.MissingFile (inputPath c)) := by
  have hex : fsExists env.fs0 cfgPath = true := by simp [fsExists, hcfg]
  have hb := bootstrapStep_of_exists env env.fs0 hex
  have hne1 : c.input_settings.input_folder ≠ inputPath c :=
    folder_ne_inputPath c
  by_cases h1 : fsExists env.fs0 c.input_settings.input_folder = true
  · have he1 : ensureDirStep env env.fs0 c.input_settings.input_folder =
        .ok (env.fs0, []) := by simp [ensureDirStep, h1]
    by_cases h2 : fsExists env.fs0 c.output_settings.output_folder = true
    · have he2 : ensureDirStep env env.fs0 c.output_settings.output_folder =
          .ok (env.fs0, []) := by simp [ensureDirStep, h2]
      have hno : fsExists env.fs0 (inputPath c) = false := by
        simp [fsExists, hniP]
      refine ⟨[], [], env.fs0, Or.inl rfl, Or.inl rfl, ?_⟩
      simp only [run, hb, hcfg, hread, if_true, hparse, he1, he2, hno,
        Bool.false_eq_true, if_false]
    · have he2 : ensureDirStep env env.fs0 c.output_settings.output_folder =
          .ok (fsSet env.fs0 c.output_settings.output_folder .dir,
            [.createDir c.output_settings.output_folder]) := by
        simp [ensureDirStep, h2, hdir]
      have hno : fsExists
          (fsSet env.fs0 c.output_settings.output_folder .dir)
          (inputPath c) = false := by
        simp [fsExists, fsLookup_fsSet_ne _ _ _ _ hneOut, hniP]
      refine ⟨[], [.createDir c.output_settings.output_folder],
        fsSet env.fs0 c.output_settings.output_folder .dir,
        Or.inl rfl, Or.inr rfl, ?_⟩
      simp only [run, hb, hcfg, hread, if_true, hparse, he1, he2, hno,
        Bool.false_eq_true, if_false]
  · have he1 : ensureDirStep env env.fs0 c.input_settings.input_folder =
        .ok (fsSet env.fs0 c.input_settings.input_folder .dir,
          [.createDir c.input_settings.input_folder]) := by
      simp [ensureDirStep, h1, hdir]
    by_cases h2 : fsExists
        (fsSet env.fs0 c.input_settings.input_folder .dir)
        c.output_settings.output_folder = true
    · have he2 : ensureDirStep env
          (fsSet env.fs0 c.input_settings.input_folder .dir)
          c.output_settings.output_folder =
          .ok (fsSet env.fs0 c.input_settings.input_folder .dir, []) := by
        simp [ensureDirStep, h2]
      have hno : fsExists
          (fsSet env.fs0 c.input_settings.input_folder .dir)
          (inputPath c) = false := by
        simp [fsExists, fsLookup_fsSet_ne _ _ _ _ hne1, hniP]
      refine ⟨[.createDir c.input_settings.input_folder], [],
        fsSet env.fs0 c.input_settings.input_folder .dir,
        Or.inr rfl, Or.inl rfl, ?_⟩
      simp only [run, hb, hcfg, hread, if_true, hparse, he1, he2, hno,
        Bool.false_eq_true, if_false]
    · have he2 : ensureDirStep env
          (fsSet env.fs0 c.input_settings.input_folder .dir)
          c.output_settings.output_folder =
          .ok (fsSet (fsSet env.fs0 c.input_settings.input_folder .dir)
            c.output_settings.output_folder .dir,
            [.createDir c.output_settings.output_folder]) := by
        simp [ensureDirStep, h2, hdir]
      have hno : fsExists
          (fsSet (fsSet env.fs0 c.input_settings.input_folder .dir)
            c.output_settings.output_folder .dir)
          (inputPath c) = false := by
        simp [fsExists, fsLookup_fsSet_ne _ _ _ _ hneOut,
          fsLookup_fsSet_ne _ _ _ _ hne1, hniP]
      refine ⟨[.createDir c.input_settings.input_folder],
        [.createDir c.output_settings.output_folder],
        fsSet (fsSet env.fs0 c.input_settings.input_folder .dir)
          c.output_settings.output_folder .dir,
        Or.inr rfl, Or.inr rfl, ?_⟩
      simp only [run, hb, hcfg, hread, if_true, hparse, he1, he2, hno,
        Bool.false_eq_true, if_false]

/-- C6: with a configuration whose resolved input path
(`input_folder + "/" + input_file`) does not exist, the pipeline fails
with `MissingFile` carrying exactly that fully-qualified path, with the
uniform exit status 1, and the external level loader is never invoked. -/
theorem C6_missing_input_fails_before_loader (env : Env) (t : Text)
    (c : Config)
    (hcfg : fsLookup env.fs0 cfgPath = some (.file t))
    (hread : env.readTextOk = true)
    (hparse : loadConfig t = .ok c)
    (hdir : ∀ p, env.createDirR p = .ok ())
    (hniP : fsLookup env.fs0 (inputPath c) = none)
    (hneOut : c.output_settings.output_folder ≠ inputPath c) :
    (run env).res = .exit 1 ∧
    Ev.printErr (.MissingFile (inputPath c)) ∈ (run env).trace ∧
    (∀ p, Ev.loadLevel p ∉ (run env).trace) := by
  obtain ⟨ev1, ev2, fs3, hev1, hev2, hrun⟩ :=
    run_missing_eq hcfg hread hparse hdir hniP hneOut
  rw [hrun]
  refine ⟨rfl, ?_, ?_⟩
  · simp [throwRun, uniformSuffix]
  · intro p
    rcases hev1 with rfl | rfl <;> rcases hev2 with rfl | rfl <;>
      simp [throwRun, uniformSuffix, trPrep]

/-- C8: the configuration bootstrap creates `config.toml` only when it is
absent, writing the fixed default payload and touching no other path, and
when the file already exists the bootstrap step leaves the whole
filesystem — in particular the file's contents — unchanged. -/
theorem C8_bootstrap_create_only_when_absent :
    (∀ (env : Env) (fs : FS), fsExists fs cfgPath = true →
      bootstrapStep env fs = (fs, none)) ∧
    (∀ (env : Env) (fs : FS), fsExists fs cfgPath = false →
      env.bootstrapR = .ok () →
      bootstrapStep env fs =
        (fsSet fs cfgPath (.file defaultConfigText), none) ∧
      fsLookup (fsSet fs cfgPath (.file defaultConfigText)) cfgPath =
        some (.file defaultConfigText) ∧
      (∀ p, p ≠ cfgPath →
        fsLookup (fsSet fs cfgPath (.file defaultConfigText)) p =
          fsLookup fs p)) := by
  constructor
  · intro env fs h
    simp [bootstrapStep, h]
  · intro env fs h hok
    refine ⟨?_, fsLookup_fsSet_self _ _ _, ?_⟩
    · simp [bootstrapStep, h, hok]
    · intro p hp
      exact fsLookup_fsSet_ne _ _ _ _ (fun he => hp he.symm)

/-! ## Directory preparation: idempotence and run-level ordering (C9) -/

/-- Run-level directory-preparation contract: the trace splits into a
prefix with no file access and a suffix with no directory creation, and
each path is created at most once. -/
def preparedDirs (out : RunOut) : Prop :=
  (∃ a b, out.trace = a ++ b ∧ a.all (fun e => !isAccessEv e) = true ∧
    b.all (fun e => !isCreateEv e) = true) ∧
  (∀ p, (out.trace.filter
    (fun e => decide (e = Ev.createDir p))).length ≤ 1)

theorem preparedDirs_of_split (out : RunOut) (a b : List Ev)
    (h : out.trace = a ++ b)
    (ha : a.all (fun e => !isAccessEv e) = true)
    (hb : b.all (fun e => !isCreateEv e) = true)
    (hc : ∀ p, (out.trace.filter
      (fun e => decide (e = Ev.createDir p))).length ≤ 1) :
    preparedDirs out :=
  ⟨⟨a, b, h, ha, hb⟩, hc⟩

theorem filter_create_nil (l : List Ev) (p : Text)
    (h : l.all (fun e => !isCreateEv e) = true) :
    l.filter (fun e => decide (e = Ev.createDir p)) = [] := by
  induction l with
  | nil => rfl
  | cons x xs ih =>
    rw [List.all_cons, Bool.and_eq_true] at h
    have hx : decide (x = Ev.createDir p) = false := by
      rw [decide_eq_false_iff_not]
      intro hxe
      subst hxe
      simp [isCreateEv] at h
    rw [List.filter_cons]
    simp only [hx, Bool.false_eq_true, if_false]
    exact ih h.2

theorem count_le_one {ev12 rest : List Ev} {p : Text}
    (hev : (ev12.filter (fun e => decide (e = Ev.createDir p))).length ≤ 1)
    (hr : rest.all (fun e => !isCreateEv e) = true) :
    ((ev12 ++ rest).filter
      (fun e => decide (e = Ev.createDir p))).length ≤ 1 := by
  rw [List.filter_append, List.length_append, filter_create_nil _ _ hr]
  simpa using hev

theorem ensure_single_count {env : Env} {fs : FS} {p1 : Text} {fs' : FS}
    {evs : List Ev} (h : ensureDirStep env fs p1 = .ok (fs', evs))
    (p : Text) :
    (evs.filter (fun e => decide (e = Ev.createDir p))).length ≤ 1 := by
  rcases ensureDirStep_spec h with ⟨_, _, rfl⟩ | ⟨_, _, _, rfl⟩
  · simp
  · exact le_trans (List.length_filter_le _ _) (by simp)

theorem ensure_pair_count {env : Env} {fs1 : FS} {p1 : Text} {fs2 : FS}
    {ev1 : List Ev} {p2 : Text} {fs3 : FS} {ev2 : List Ev}
    (h1 : ensureDirStep env fs1 p1 = .ok (fs2, ev1))
    (h2 : ensureDirStep env fs2 p2 = .ok (fs3, ev2)) (p : Text) :
    ((ev1 ++ ev2).filter
      (fun e => decide (e = Ev.createDir p))).length ≤ 1 := by
  rcases ensureDirStep_spec h1 with ⟨_, hf2, rfl⟩ | ⟨_, _, hf2, rfl⟩
  · subst hf2
    simpa using ensure_single_count h2 p
  · subst hf2
    rcases ensureDirStep_spec h2 with ⟨_, _, rfl⟩ | ⟨hx2, _, _, rfl⟩
    · exact le_trans (List.length_filter_le _ _) (by simp)
    · have hne : p1 ≠ p2 := by
        intro h
        subst h
        simp [fsExists, fsLookup_fsSet_self] at hx2
      by_cases hq1 : Ev.createDir p1 = Ev.createDir p
      · by_cases hq2 : Ev.createDir p2 = Ev.createDir p
        · exact absurd (by
            have e1 : p1 = p := by injection hq1
            have e2 : p2 = p := by injection hq2
            rw [e1, e2]) hne
        · simp [List.filter_cons, hq1, hq2]
      · by_cases hq2 : Ev.createDir p2 = Ev.createDir p
        · simp [List.filter_cons, hq1, hq2]
        · simp [List.filter_cons, hq1, hq2]

theorem trPrep_noAccess {env : Env} {fs1 : FS} {p1 : Text} {fs2 : FS}
    {ev1 : List Ev} {p2 : Text} {fs3 : FS} {ev2 : List Ev}
    (h1 : ensureDirStep env fs1 p1 = .ok (fs2, ev1))
    (h2 : ensureDirStep env fs2 p2 = .ok (fs3, ev2)) :
    (trPrep ev1 ev2).all (fun e => !isAccessEv e) = true := by
  rcases ensureDirStep_spec h1 with ⟨_, _, rfl⟩ | ⟨_, _, _, rfl⟩ <;>
    rcases ensureDirStep_spec h2 with ⟨_, _, rfl⟩ | ⟨_, _, _, rfl⟩ <;>
      simp [trPrep, isAccessEv]

theorem preparedDirs_throw_nil (fs : FS) (e : GeneralError) :
    preparedDirs (throwRun [] fs e) := by
  apply preparedDirs_of_split _ [] (uniformSuffix e) rfl rfl
  · simp [uniformSuffix, isCreateEv]
  · intro p
    simp [throwRun, uniformSuffix, List.filter]

theorem preparedDirs_panic (fs : FS) :
    preparedDirs ⟨[], fs, .panicked⟩ := by
  apply preparedDirs_of_split _ [] [] rfl rfl rfl
  intro p
  simp

theorem preparedDirs_ev1_throw {env : Env} {fs1 : FS} {p1 : Text}
    {fs2 : FS} {ev1 : List Ev}
    (h1 : ensureDirStep env fs1 p1 = .ok (fs2, ev1))
    (fs : FS) (e : GeneralError) :
    preparedDirs (throwRun ev1 fs e) := by
  apply preparedDirs_of_split _ ev1 (uniformSuffix e) rfl
  · rcases ensureDirStep_spec h1 with ⟨_, _, rfl⟩ | ⟨_, _, _, rfl⟩ <;>
      simp [isAccessEv]
  · simp [uniformSuffix, isCreateEv]
  · intro p
    exact count_le_one (ensure_single_count h1 p)
      (by simp [uniformSuffix, isCreateEv])

theorem preparedDirs_trPrep_throw {env : Env} {fs1 : FS} {p1 : Text}
    {fs2 : FS} {ev1 : List Ev} {p2 : Text} {fs3 : FS} {ev2 : List Ev}
    (h1 : ensureDirStep env fs1 p1 = .ok (fs2, ev1))
    (h2 : ensureDirStep env fs2 p2 = .ok (fs3, ev2))
    (fs : FS) (e : GeneralError) :
    preparedDirs (throwRun (trPrep ev1 ev2) fs e) := by
  apply preparedDirs_of_split _ (trPrep ev1 ev2) (uniformSuffix e) rfl
    (trPrep_noAccess h1 h2)
  · simp [uniformSuffix, isCreateEv]
  · intro p
    have hshape : (throwRun (trPrep ev1 ev2) fs e).trace =
        (ev1 ++ ev2) ++ ([Ev.printOut loadingMsg] ++ uniformSuffix e) := by
      simp [throwRun, trPrep]
    rw [hshape]
    exact count_le_one (ensure_pair_count h1 h2 p)
      (by simp [uniformSuffix, isCreateEv])

theorem preparedDirs_trLoad_throw {env : Env} {fs1 : FS} {p1 : Text}
    {fs2 : FS} {ev1 : List Ev} {p2 : Text} {fs3 : FS} {ev2 : List Ev}
    (h1 : ensureDirStep env fs1 p1 = .ok (fs2, ev1))
    (h2 : ensureDirStep env fs2 p2 = .ok (fs3, ev2))
    (fs : FS) (q : Text) (e : GeneralError) :
    preparedDirs (throwRun (trLoad ev1 ev2 q) fs e) := by
  apply preparedDirs_of_split _ (trPrep ev1 ev2)
    ([Ev.loadLevel q] ++ uniformSuffix e)
    (by simp [throwRun, trLoad]) (trPrep_noAccess h1 h2)
  · simp [uniformSuffix, isCreateEv]
  · intro p
    have hshape : (throwRun (trLoad ev1 ev2 q) fs e).trace =
        (ev1 ++ ev2) ++ ([Ev.printOut loadingMsg, Ev.loadLevel q] ++
          uniformSuffix e) := by
      simp [throwRun, trLoad, trPrep]
    rw [hshape]
    exact count_le_one (ensure_pair_count h1 h2 p)
      (by simp [uniformSuffix, isCreateEv])

theorem preparedDirs_trConv_throw {env : Env} {fs1 : FS} {p1 : Text}
    {fs2 : FS} {ev1 : List Ev} {p2 : Text} {fs3 : FS} {ev2 : List Ev}
    (h1 : ensureDirStep env fs1 p1 = .ok (fs2, ev1))
    (h2 : ensureDirStep env fs2 p2 = .ok (fs3, ev2))
    (fs : FS) (q : Text) (e : GeneralError) :
    preparedDirs (throwRun (trConv ev1 ev2 q) fs e) := by
  apply preparedDirs_of_split _ (trPrep ev1 ev2)
    ([Ev.loadLevel q, Ev.printOut convertingMsg, Ev.convert] ++
      uniformSuffix e)
    (by simp [throwRun, trConv, trLoad]) (trPrep_noAccess h1 h2)
  · simp [uniformSuffix, isCreateEv]
  · intro p
    have hshape : (throwRun (trConv ev1 ev2 q) fs e).trace =
        (ev1 ++ ev2) ++ ([Ev.printOut loadingMsg, Ev.loadLevel q,
          Ev.printOut convertingMsg, Ev.convert] ++ uniformSuffix e) := by
      simp [throwRun, trConv, trLoad, trPrep]
    rw [hshape]
    exact count_le_one (ensure_pair_count h1 h2 p)
      (by simp [uniformSuffix, isCreateEv])

theorem preparedDirs_trSer_throw {env : Env} {fs1 : FS} {p1 : Text}
    {fs2 : FS} {ev1 : List Ev} {p2 : Text} {fs3 : FS} {ev2 : List Ev}
    (h1 : ensureDirStep env fs1 p1 = .ok (fs2, ev1))
    (h2 : ensureDirStep env fs2 p2 = .ok (fs3, ev2))
    (fs : FS) (q : Text) (e : GeneralError) :
    preparedDirs (throwRun (trSer ev1 ev2 q) fs e) := by
  apply preparedDirs_of_split _ (trPrep ev1 ev2)
    ([Ev.loadLevel q, Ev.printOut convertingMsg, Ev.convert,
      Ev.printOut serializingMsg, Ev.serialize, Ev.printOut writingMsg] ++
      uniformSuffix e)
    (by simp [throwRun, trSer, trConv, trLoad]) (trPrep_noAccess h1 h2)
  · simp [uniformSuffix, isCreateEv]
  · intro p
    have hshape : (throwRun (trSer ev1 ev2 q) fs e).trace =
        (ev1 ++ ev2) ++ ([Ev.printOut loadingMsg, Ev.loadLevel q,
          Ev.printOut convertingMsg, Ev.convert, Ev.printOut serializingMsg,
          Ev.serialize, Ev.printOut writingMsg] ++ uniformSuffix e) := by
      simp [throwRun, trSer, trConv, trLoad, trPrep]
    rw [hshape]
    exact count_le_one (ensure_pair_count h1 h2 p)
      (by simp [uniformSuffix, isCreateEv])

theorem preparedDirs_wstore_throw {env : Env} {fs1 : FS} {p1 : Text}
    {fs2 : FS} {ev1 : List Ev} {p2 : Text} {fs3 : FS} {ev2 : List Ev}
    (h1 : ensureDirStep env fs1 p1 = .ok (fs2, ev1))
    (h2 : ensureDirStep env fs2 p2 = .ok (fs3, ev2))
    (fs : FS) (q a b d f : Text) (e : GeneralError) :
    preparedDirs
      (throwRun (trSer ev1 ev2 q ++ [Ev.writeStorage a b d f]) fs e) := by
  apply preparedDirs_of_split _ (trPrep ev1 ev2)
    ([Ev.loadLevel q, Ev.printOut convertingMsg, Ev.convert,
      Ev.printOut serializingMsg, Ev.serialize, Ev.printOut writingMsg,
      Ev.writeStorage a b d f] ++ uniformSuffix e)
    (by simp [throwRun, trSer, trConv, trLoad]) (trPrep_noAccess h1 h2)
  · simp [uniformSuffix, isCreateEv]
  · intro p
    have hshape :
        (throwRun (trSer ev1 ev2 q ++ [Ev.writeStorage a b d f]) fs e).trace
        = (ev1 ++ ev2) ++ ([Ev.printOut loadingMsg, Ev.loadLevel q,
          Ev.printOut convertingMsg, Ev.convert, Ev.printOut serializingMsg,
          Ev.serialize, Ev.printOut writingMsg, Ev.writeStorage a b d f] ++
          uniformSuffix e) := by
      simp [throwRun, trSer, trConv, trLoad, trPrep]
    rw [hshape]
    exact count_le_one (ensure_pair_count h1 h2 p)
      (by simp [uniformSuffix, isCreateEv])

theorem preparedDirs_wstore_finish {env : Env} {fs1 : FS} {p1 : Text}
    {fs2 : FS} {ev1 : List Ev} {p2 : Text} {fs3 : FS} {ev2 : List Ev}
    (h1 : ensureDirStep env fs1 p1 = .ok (fs2, ev1))
    (h2 : ensureDirStep env fs2 p2 = .ok (fs3, ev2))
    (fs : FS) (q a b d f : Text) :
    preparedDirs
      (finishRun (trSer ev1 ev2 q ++ [Ev.writeStorage a b d f]) fs) := by
  apply preparedDirs_of_split _ (trPrep ev1 ev2)
    ([Ev.loadLevel q, Ev.printOut convertingMsg, Ev.convert,
      Ev.printOut serializingMsg, Ev.serialize, Ev.printOut writingMsg,
      Ev.writeStorage a b d f] ++ [Ev.printOut promptMsg, Ev.readLine])
    (by simp [finishRun, trSer, trConv, trLoad]) (trPrep_noAccess h1 h2)
  · simp [isCreateEv]
  · intro p
    have hshape :
        (finishRun (trSer ev1 ev2 q ++ [Ev.writeStorage a b d f]) fs).trace
        = (ev1 ++ ev2) ++ ([Ev.printOut loadingMsg, Ev.loadLevel q,
          Ev.printOut convertingMsg, Ev.convert, Ev.printOut serializingMsg,
          Ev.serialize, Ev.printOut writingMsg, Ev.writeStorage a b d f] ++
          [Ev.printOut promptMsg, Ev.readLine]) := by
      simp [finishRun, trSer, trConv, trLoad, trPrep]
    rw [hshape]
    exact count_le_one (ensure_pair_count h1 h2 p)
      (by simp [isCreateEv])

theorem preparedDirs_wscript_finish {env : Env} {fs1 : FS} {p1 : Text}
    {fs2 : FS} {ev1 : List Ev} {p2 : Text} {fs3 : FS} {ev2 : List Ev}
    (h1 : ensureDirStep env fs1 p1 = .ok (fs2, ev1))
    (h2 : ensureDirStep env fs2 p2 = .ok (fs3, ev2))
    (fs : FS) (q a b d : Text) :
    preparedDirs
      (finishRun (trSer ev1 ev2 q ++ [Ev.writeScript a b d]) fs) := by
  apply preparedDirs_of_split _ (trPrep ev1 ev2)
    ([Ev.loadLevel q, Ev.printOut convertingMsg, Ev.convert,
      Ev.printOut serializingMsg, Ev.serialize, Ev.printOut writingMsg,
      Ev.writeScript a b d] ++ [Ev.printOut promptMsg, Ev.readLine])
    (by simp [finishRun, trSer, trConv, trLoad]) (trPrep_noAccess h1 h2)
  · simp [isCreateEv]
  · intro p
    have hshape :
        (finishRun (trSer ev1 ev2 q ++ [Ev.writeScript a b d]) fs).trace
        = (ev1 ++ ev2) ++ ([Ev.printOut loadingMsg, Ev.loadLevel q,
          Ev.printOut convertingMsg, Ev.convert, Ev.printOut serializingMsg,
          Ev.serialize, Ev.printOut writingMsg, Ev.writeScript a b d] ++
          [Ev.printOut promptMsg, Ev.readLine]) := by
      simp [finishRun, trSer, trConv, trLoad, trPrep]
    rw [hshape]
    exact count_le_one (ensure_pair_count h1 h2 p)
      (by simp [isCreateEv])

/-- C9: a directory-ensure on an existing path is a no-op with no error;
after any successful ensure, a second ensure of the same path is a no-op
(idempotence, no duplicate creation); an absent path is created; and in
every run, all directory creation happens before any file access, each
path being created at most once. -/
theorem C9_directory_ensure_idempotent :
    (∀ (env : Env) (fs : FS) (p : Text), fsExists fs p = true →
      ensureDirStep env fs p = .ok (fs, [])) ∧
    (∀ (env : Env) (fs : FS) (p : Text) (fs' : FS) (evs : List Ev),
      ensureDirStep env fs p = .ok (fs', evs) →
      ensureDirStep env fs' p = .ok (fs', [])) ∧
    (∀ (env : Env) (fs : FS) (p : Text), fsExists fs p = false →
      env.createDirR p = .ok () →
      ensureDirStep env fs p = .ok (fsSet fs p .dir, [.createDir p])) ∧
    (∀ env : Env, preparedDirs (run env)) := by
  refine ⟨?_, ?_, ?_, ?_⟩
  · intro env fs p h
    simp [ensureDirStep, h]
  · intro env fs p fs' evs h
    rcases ensureDirStep_spec h with ⟨hx, rfl, _⟩ | ⟨_, _, rfl, _⟩
    · simp [ensureDirStep, hx]
    · simp [ensureDirStep, fsExists, fsLookup_fsSet_self]
  · intro env fs p h hok
    simp [ensureDirStep, h, hok]
  · intro env
    unfold run deliveryOutcome
    repeat' split
    all_goals first
      | exact preparedDirs_panic _
      | exact preparedDirs_throw_nil _ _
      | exact preparedDirs_ev1_throw ‹_› _ _
      | exact preparedDirs_trPrep_throw ‹_› ‹_› _ _
      | exact preparedDirs_trLoad_throw ‹_› ‹_› _ _ _
      | exact preparedDirs_trConv_throw ‹_› ‹_› _ _ _
      | exact preparedDirs_trSer_throw ‹_› ‹_› _ _ _
      | exact preparedDirs_wstore_throw ‹_› ‹_› _ _ _ _ _ _ _
      | exact preparedDirs_wstore_finish ‹_› ‹_› _ _ _ _ _ _
      | exact preparedDirs_wscript_finish ‹_› ‹_› _ _ _ _ _

/-! ## Delivery ordering and exclusivity (C7) -/

/-- Events of the pipeline prefix before delivery: neither writes nor
delivery actions. -/
def stageOK (e : Ev) : Bool := !isWriteEv e && !isDeliveryEv e

/-- Ordering/exclusivity contract of the delivery stage: any write happens
strictly after the serialization event; at most one delivery action
(direct write, script write, or invalid-mode rejection) occurs per run;
and a run that exits 0 performed exactly one delivery action. -/
def orderedDelivery (out : RunOut) : Prop :=
  ((∃ w ∈ out.trace, isWriteEv w = true) →
    ∃ a b, out.trace = a ++ Ev.serialize :: b ∧
      a.all (fun e => !isWriteEv e) = true) ∧
  (out.trace.filter isDeliveryEv).length ≤ 1 ∧
  (out.res = .exit 0 → (out.trace.filter isDeliveryEv).length = 1)

theorem all_imp {α : Type} {l : List α} {f g : α → Bool}
    (h : ∀ e, f e = true → g e = true) (hl : l.all f = true) :
    l.all g = true := by
  rw [List.all_eq_true] at hl ⊢
  exact fun x hx => h x (hl x hx)

theorem filter_nil_of_all_not {α : Type} (f : α → Bool) (l : List α)
    (h : l.all (fun e => !f e) = true) : l.filter f = [] := by
  induction l with
  | nil => rfl
  | cons x xs ih =>
    rw [List.all_cons, Bool.and_eq_true] at h
    have hx : f x = false := by
      rcases h with ⟨h1, _⟩
      revert h1
      cases f x <;> simp
    rw [List.filter_cons]
    simp only [hx, Bool.false_eq_true, if_false]
    exact ih h.2

theorem stage_no_write {l : List Ev} (h : l.all stageOK = true) :
    l.all (fun e => !isWriteEv e) = true := by
  refine all_imp ?_ h
  intro e he
  simp only [stageOK, Bool.and_eq_true] at he
  exact he.1

theorem stage_no_del {l : List Ev} (h : l.all stageOK = true) :
    l.all (fun e => !isDeliveryEv e) = true := by
  refine all_imp ?_ h
  intro e he
  simp only [stageOK, Bool.and_eq_true] at he
  exact he.2

theorem ensure_stageOK {env : Env} {fs : FS} {p : Text} {fs' : FS}
    {evs : List Ev} (h : ensureDirStep env fs p = .ok (fs', evs)) :
    evs.all stageOK = true := by
  rcases ensureDirStep_spec h with ⟨_, _, rfl⟩ | ⟨_, _, _, rfl⟩ <;>
    simp [stageOK, isWriteEv, isDeliveryEv]

theorem trPrep_stageOK {env : Env} {fs1 : FS} {p1 : Text} {fs2 : FS}
    {ev1 : List Ev} {p2 : Text} {fs3 : FS} {ev2 : List Ev}
    (h1 : ensureDirStep env fs1 p1 = .ok (fs2, ev1))
    (h2 : ensureDirStep env fs2 p2 = .ok (fs3, ev2)) :
    (trPrep ev1 ev2).all stageOK = true := by
  rcases ensureDirStep_spec h1 with ⟨_, _, rfl⟩ | ⟨_, _, _, rfl⟩ <;>
    rcases ensureDirStep_spec h2 with ⟨_, _, rfl⟩ | ⟨_, _, _, rfl⟩ <;>
      simp [trPrep, stageOK, isWriteEv, isDeliveryEv]

theorem trLoad_stageOK {env : Env} {fs1 : FS} {p1 : Text} {fs2 : FS}
    {ev1 : List Ev} {p2 : Text} {fs3 : FS} {ev2 : List Ev} {q : Text}
    (h1 : ensureDirStep env fs1 p1 = .ok (fs2, ev1))
    (h2 : ensureDirStep env fs2 p2 = .ok (fs3, ev2)) :
    (trLoad ev1 ev2 q).all stageOK = true := by
  simp [trLoad, List.all_append, trPrep_stageOK h1 h2, stageOK,
    isWriteEv, isDeliveryEv]

theorem trConv_stageOK {env : Env} {fs1 : FS} {p1 : Text} {fs2 : FS}
    {ev1 : List Ev} {p2 : Text} {fs3 : FS} {ev2 : List Ev} {q : Text}
    (h1 : ensureDirStep env fs1 p1 = .ok (fs2, ev1))
    (h2 : ensureDirStep env fs2 p2 = .ok (fs3, ev2)) :
    (trConv ev1 ev2 q).all stageOK = true := by
  simp [trConv, List.all_append, trLoad_stageOK h1 h2, stageOK,
    isWriteEv, isDeliveryEv]

theorem trSer_stageOK {env : Env} {fs1 : FS} {p1 : Text} {fs2 : FS}
    {ev1 : List Ev} {p2 : Text} {fs3 : FS} {ev2 : List Ev} {q : Text}
    (h1 : ensureDirStep env fs1 p1 = .ok (fs2, ev1))
    (h2 : ensureDirStep env fs2 p2 = .ok (fs3, ev2)) :
    (trSer ev1 ev2 q).all stageOK = true := by
  simp [trSer, List.all_append, trConv_stageOK h1 h2, stageOK,
    isWriteEv, isDeliveryEv]

theorem bootstrap_err_shape {env : Env} {fs fs' : FS} {e : GeneralError}
    (h : bootstrapStep env fs = (fs', some e)) : ∃ n, e = .FileError n := by
  unfold bootstrapStep at h
  split at h
  · cases h
  · split at h
    · cases h
    · rename_i n _
      cases h
      exact ⟨n, rfl⟩

theorem orderedDelivery_panic (fs : FS) :
    orderedDelivery ⟨[], fs, .panicked⟩ := by
  refine ⟨?_, ?_, ?_⟩
  · rintro ⟨w, hw, _⟩
    cases hw
  · simp
  · intro h
    simp at h

theorem orderedDelivery_throw_nodel (tr : List Ev) (fs : FS)
    (e : GeneralError) (htr : tr.all stageOK = true)
    (he : isDeliveryEv (Ev.printErr e) = false) :
    orderedDelivery (throwRun tr fs e) := by
  have hsuf : (uniformSuffix e).filter isDeliveryEv = [] := by
    rw [uniformSuffix, List.filter_cons, he]
    simp only [Bool.false_eq_true, if_false]
    rfl
  refine ⟨?_, ?_, ?_⟩
  · rintro ⟨w, hw, hwt⟩
    have hw' : w ∈ tr ++ uniformSuffix e := hw
    rcases List.mem_append.mp hw' with h | h
    · have hs := List.all_eq_true.mp (stage_no_write htr) w h
      rw [hwt] at hs
      cases hs
    · simp only [uniformSuffix, List.mem_cons, List.not_mem_nil,
        or_false] at h
      rcases h with rfl | rfl | rfl <;> simp [isWriteEv] at hwt
  · show ((tr ++ uniformSuffix e).filter isDeliveryEv).length ≤ 1
    rw [List.filter_append,
      filter_nil_of_all_not isDeliveryEv tr (stage_no_del htr), hsuf]
    simp
  · intro h
    simp [throwRun] at h

theorem orderedDelivery_invalid (tr : List Ev) (fs : FS) (v : Nat)
    (htr : tr.all stageOK = true) :
    orderedDelivery (throwRun tr fs (.InvalidMode v)) := by
  refine ⟨?_, ?_, ?_⟩
  · rintro ⟨w, hw, hwt⟩
    have hw' : w ∈ tr ++ uniformSuffix (.InvalidMode v) := hw
    rcases List.mem_append.mp hw' with h | h
    · have hs := List.all_eq_true.mp (stage_no_write htr) w h
      rw [hwt] at hs
      cases hs
    · simp only [uniformSuffix, List.mem_cons, List.not_mem_nil,
        or_false] at h
      rcases h with rfl | rfl | rfl <;> simp [isWriteEv] at hwt
  · show ((tr ++ uniformSuffix (.InvalidMode v)).filter
      isDeliveryEv).length ≤ 1
    rw [List.filter_append,
      filter_nil_of_all_not isDeliveryEv tr (stage_no_del htr)]
    simp [uniformSuffix, List.filter_cons, isDeliveryEv]
  · intro h
    simp [throwRun] at h

theorem orderedDelivery_wstore_throw {env : Env} {fs1 : FS} {p1 : Text}
    {fs2 : FS} {ev1 : List Ev} {p2 : Text} {fs3 : FS} {ev2 : List Ev}
    (h1 : ensureDirStep env fs1 p1 = .ok (fs2, ev1))
    (h2 : ensureDirStep env fs2 p2 = .ok (fs3, ev2))
    (fs : FS) (q a b d f : Text) (e : Nat) :
    orderedDelivery (throwRun (trSer ev1 ev2 q ++ [Ev.writeStorage a b d f])
      fs (.WriteError e)) := by
  have hC : (trConv ev1 ev2 q).filter isDeliveryEv = [] :=
    filter_nil_of_all_not isDeliveryEv _ (stage_no_del (trConv_stageOK h1 h2))
  refine ⟨?_, ?_, ?_⟩
  · intro _
    refine ⟨trConv ev1 ev2 q ++ [Ev.printOut serializingMsg],
      [Ev.printOut writingMsg, Ev.writeStorage a b d f] ++
        uniformSuffix (.WriteError e), ?_, ?_⟩
    · simp [throwRun, trSer, uniformSuffix]
    · rw [List.all_append, stage_no_write (trConv_stageOK h1 h2)]
      rfl
  · show ((trSer ev1 ev2 q ++ [Ev.writeStorage a b d f] ++
      uniformSuffix (.WriteError e)).filter isDeliveryEv).length ≤ 1
    simp [trSer, uniformSuffix, List.filter_append, List.filter_cons,
      hC, isDeliveryEv]
  · intro h
    simp [throwRun] at h

theorem orderedDelivery_wstore_finish {env : Env} {fs1 : FS} {p1 : Text}
    {fs2 : FS} {ev1 : List Ev} {p2 : Text} {fs3 : FS} {ev2 : List Ev}
    (h1 : ensureDirStep env fs1 p1 = .ok (fs2, ev1))
    (h2 : ensureDirStep env fs2 p2 = .ok (fs3, ev2))
    (fs : FS) (q a b d f : Text) :
    orderedDelivery
      (finishRun (trSer ev1 ev2 q ++ [Ev.writeStorage a b d f]) fs) := by
  have hC : (trConv ev1 ev2 q).filter isDeliveryEv = [] :=
    filter_nil_of_all_not isDeliveryEv _ (stage_no_del (trConv_stageOK h1 h2))
  refine ⟨?_, ?_, ?_⟩
  · intro _
    refine ⟨trConv ev1 ev2 q ++ [Ev.printOut serializingMsg],
      [Ev.printOut writingMsg, Ev.writeStorage a b d f] ++
        [Ev.printOut promptMsg, Ev.readLine], ?_, ?_⟩
    · simp [finishRun, trSer]
    · rw [List.all_append, stage_no_write (trConv_stageOK h1 h2)]
      rfl
  · show ((trSer ev1 ev2 q ++ [Ev.writeStorage a b d f] ++
      [Ev.printOut promptMsg, Ev.readLine]).filter isDeliveryEv).length ≤ 1
    simp [trSer, List.filter_append, List.filter_cons, hC, isDeliveryEv]
  · intro _
    show ((trSer ev1 ev2 q ++ [Ev.writeStorage a b d f] ++
      [Ev.printOut promptMsg, Ev.readLine]).filter isDeliveryEv).length = 1
    simp [trSer, List.filter_append, List.filter_cons, hC, isDeliveryEv]

theorem orderedDelivery_wscript_finish {env : Env} {fs1 : FS} {p1 : Text}
    {fs2 : FS} {ev1 : List Ev} {p2 : Text} {fs3 : FS} {ev2 : List Ev}
    (h1 : ensureDirStep env fs1 p1 = .ok (fs2, ev1))
    (h2 : ensureDirStep env fs2 p2 = .ok (fs3, ev2))
    (fs : FS) (q a b d : Text) :
    orderedDelivery
      (finishRun (trSer ev1 ev2 q ++ [Ev.writeScript a b d]) fs) := by
  have hC : (trConv ev1 ev2 q).filter isDeliveryEv = [] :=
    filter_nil_of_all_not isDeliveryEv _ (stage_no_del (trConv_stageOK h1 h2))
  refine ⟨?_, ?_, ?_⟩
  · intro _
    refine ⟨trConv ev1 ev2 q ++ [Ev.printOut serializingMsg],
      [Ev.printOut writingMsg, Ev.writeScript a b d] ++
        [Ev.printOut promptMsg, Ev.readLine], ?_, ?_⟩
    · simp [finishRun, trSer]
    · rw [List.all_append, stage_no_write (trConv_stageOK h1 h2)]
      rfl
  · show ((trSer ev1 ev2 q ++ [Ev.writeScript a b d] ++
      [Ev.printOut promptMsg, Ev.readLine]).filter isDeliveryEv).length ≤ 1
    simp [trSer, List.filter_append, List.filter_cons, hC, isDeliveryEv]
  · intro _
    show ((trSer ev1 ev2 q ++ [Ev.writeScript a b d] ++
      [Ev.printOut promptMsg, Ev.readLine]).filter isDeliveryEv).length = 1
    simp [trSer, List.filter_append, List.filter_cons, hC, isDeliveryEv]

/-- C7: in every run, output artifacts are written only after the
serialization that produced both strings; at most one delivery action
(direct write, script write, or invalid-mode rejection) occurs, so at
most one mode's side effects happen; and a run that completes (exit 0)
performed exactly one delivery action. -/
theorem C7_delivery_after_serialization_single_branch (env : Env) :
    orderedDelivery (run env) := by
  unfold run deliveryOutcome
  repeat' split
  all_goals first
    | exact orderedDelivery_panic _
    | (rename_i heqb
       obtain ⟨n, rfl⟩ := bootstrap_err_shape heqb
       exact orderedDelivery_throw_nodel [] _ _ rfl rfl)
    | exact orderedDelivery_throw_nodel [] _ _ rfl rfl
    | exact orderedDelivery_throw_nodel _ _ _ (ensure_stageOK ‹_›) rfl
    | exact orderedDelivery_throw_nodel _ _ _ (trPrep_stageOK ‹_› ‹_›) rfl
    | exact orderedDelivery_throw_nodel _ _ _ (trLoad_stageOK ‹_› ‹_›) rfl
    | exact orderedDelivery_throw_nodel _ _ _ (trConv_stageOK ‹_› ‹_›) rfl
    | exact orderedDelivery_invalid _ _ _ (trSer_stageOK ‹_› ‹_›)
    | exact orderedDelivery_wstore_throw ‹_› ‹_› _ _ _ _ _ _ _
    | exact orderedDelivery_wstore_finish ‹_› ‹_› _ _ _ _ _ _
    | exact orderedDelivery_wscript_finish ‹_› ‹_› _ _ _ _ _

/-! ## The dash normalization acts on the whole text (C3/C4/C10) -/

/-- Action of the dash replacement on a raw value: string contents are
mapped, integers are untouched. -/
def rvDash : RawValue → RawValue
  | .str s => .str (replaceDash s)
  | .int n => .int n

/-- Action of the dash replacement on a parsed line. -/
def lkDash : LineKind → LineKind
  | .blank => .blank
  | .sectionHead n => .sectionHead (replaceDash n)
  | .keyVal k v => .keyVal (replaceDash k) (rvDash v)

/-- Action of the dash replacement on an assignment. -/
def assignDash (a : Assign) : Assign :=
  (replaceDash a.1, replaceDash a.2.1, rvDash a.2.2)

theorem dashChar_eq_self {c : Char} (h : c ≠ '-') : dashChar c = c := by
  simp [dashChar, h]

theorem dashChar_eq_iff {c s : Char} (h1 : s ≠ '-') (h2 : s ≠ '_') :
    dashChar c = s ↔ c = s := by
  by_cases hc : c = '-'
  · subst hc
    rw [show dashChar '-' = '_' from rfl]
    constructor
    · intro h
      exact absurd h.symm h2
    · intro h
      exact absurd h.symm h1
  · rw [dashChar_eq_self hc]

theorem isSpace_dashChar (c : Char) :
    isSpaceChar (dashChar c) = isSpaceChar c := by
  by_cases hc : c = '-'
  · subst hc
    decide
  · rw [dashChar_eq_self hc]

theorem isDigit_dashChar (c : Char) :
    (dashChar c).isDigit = c.isDigit := by
  by_cases hc : c = '-'
  · subst hc
    decide
  · rw [dashChar_eq_self hc]

theorem replaceDash_digits_id {l : Text} (h : l.all Char.isDigit = true) :
    replaceDash l = l := by
  induction l with
  | nil => rfl
  | cons c rest ih =>
    rw [List.all_cons, Bool.and_eq_true] at h
    show dashChar c :: replaceDash rest = c :: rest
    rw [ih h.2, dashChar_eq_self]
    intro hc
    subst hc
    cases h.1

theorem dash_not_mem_replaceDash (l : Text) : '-' ∉ replaceDash l := by
  intro h
  rcases List.mem_map.mp h with ⟨c, _, hc⟩
  by_cases h1 : c = '-'
  · subst h1
    simp [dashChar] at hc
  · rw [dashChar_eq_self h1] at hc
    exact h1 hc

theorem dropWhile_map_dash (t : Text) :
    (replaceDash t).dropWhile isSpaceChar =
      replaceDash (t.dropWhile isSpaceChar) := by
  induction t with
  | nil => rfl
  | cons c rest ih =>
    show (dashChar c :: replaceDash rest).dropWhile isSpaceChar = _
    rw [List.dropWhile_cons, List.dropWhile_cons, isSpace_dashChar]
    by_cases h : isSpaceChar c = true
    · simp [h, ih]
    · simp only [h, Bool.false_eq_true, if_false]
      rfl

theorem trimText_dash (t : Text) :
    trimText (replaceDash t) = replaceDash (trimText t) := by
  unfold trimText
  rw [dropWhile_map_dash]
  rw [show (replaceDash (t.dropWhile isSpaceChar)).reverse =
    replaceDash ((t.dropWhile isSpaceChar).reverse) from
    (List.map_reverse _ _).symm]
  rw [dropWhile_map_dash]
  exact (List.map_reverse _ _).symm

theorem splitLines_ne_nil (t : Text) : splitLines t ≠ [] := by
  induction t with
  | nil => simp [splitLines]
  | cons c rest ih =>
    rw [splitLines]
    by_cases h : c = '\n'
    · simp [h]
    · simp only [h, if_false]
      cases hsp : splitLines rest with
      | nil => simp
      | cons l ls => simp

theorem splitLines_dash (t : Text) :
    splitLines (replaceDash t) = (splitLines t).map replaceDash := by
  induction t with
  | nil => rfl
  | cons c rest ih =>
    show splitLines (dashChar c :: replaceDash rest) = _
    rw [splitLines, splitLines]
    by_cases h : c = '\n'
    · rw [if_pos ((dashChar_eq_iff (by decide) (by decide)).mpr h),
        if_pos h, ih]
      rfl
    · rw [if_neg (fun hx => h ((dashChar_eq_iff (by decide)
        (by decide)).mp hx)), if_neg h, ih]
      cases hsp : splitLines rest with
      | nil => exact absurd hsp (splitLines_ne_nil rest)
      | cons l ls => rfl

theorem splitFirstEq_dash (t : Text) :
    splitFirstEq (replaceDash t) =
      Option.map (fun p => (replaceDash p.1, replaceDash p.2))
        (splitFirstEq t) := by
  induction t with
  | nil => rfl
  | cons c rest ih =>
    show splitFirstEq (dashChar c :: replaceDash rest) = _
    rw [splitFirstEq, splitFirstEq]
    by_cases h : c = '='
    · rw [if_pos ((dashChar_eq_iff (by decide) (by decide)).mpr h),
        if_pos h]
      rfl
    · rw [if_neg (fun hx => h ((dashChar_eq_iff (by decide)
        (by decide)).mp hx)), if_neg h, ih]
      cases hsp : splitFirstEq rest with
      | none => rfl
      | some p => rfl

theorem all_map_dash (l : Text) (p : Char → Bool)
    (hp : ∀ c, p (dashChar c) = p c) :
    (replaceDash l).all p = l.all p := by
  rw [show replaceDash l = l.map dashChar from rfl, List.all_map]
  congr 1
  funext x
  exact hp x

theorem parseValue_dash (v : Text) :
    parseValue (replaceDash v) = Option.map rvDash (parseValue v) := by
  cases v with
  | nil => rfl
  | cons c rest =>
    show parseValue (dashChar c :: replaceDash rest) = _
    simp only [parseValue]
    by_cases hq : c = quoteChar
    · rw [if_pos ((dashChar_eq_iff (by decide) (by decide)).mpr hq),
        if_pos hq,
        show (replaceDash rest).reverse = replaceDash rest.reverse from
          (List.map_reverse _ _).symm]
      cases hrev : rest.reverse with
      | nil => rfl
      | cons d mid =>
        rw [show replaceDash (d :: mid) = dashChar d :: replaceDash mid
          from rfl]
        have e1 : decide (dashChar d = quoteChar) = decide (d = quoteChar) :=
          decide_eq_decide.mpr (dashChar_eq_iff (by decide) (by decide))
        have e2 : (replaceDash mid).all (fun x => decide (x ≠ quoteChar)) =
            mid.all (fun x => decide (x ≠ quoteChar)) := by
          refine all_map_dash mid _ ?_
          intro x
          exact decide_eq_decide.mpr
            (not_congr (dashChar_eq_iff (by decide) (by decide)))
        dsimp only
        rw [show (decide (dashChar d = quoteChar) &&
            (replaceDash mid).all (fun x => decide (x ≠ quoteChar))) =
            (decide (d = quoteChar) &&
            mid.all (fun x => decide (x ≠ quoteChar))) from by rw [e1, e2]]
        by_cases hc2 : (decide (d = quoteChar) &&
            mid.all (fun x => decide (x ≠ quoteChar))) = true
        · rw [if_pos hc2, if_pos hc2]
          dsimp only [Option.map, rvDash]
          exact congrArg (fun z => some (RawValue.str z))
            (List.map_reverse _ _).symm
        · rw [if_neg hc2, if_neg hc2]
          rfl
    · rw [if_neg (fun hx => hq ((dashChar_eq_iff (by decide)
        (by decide)).mp hx)), if_neg hq]
      have e3 : (dashChar c :: replaceDash rest).all Char.isDigit =
          (c :: rest).all Char.isDigit := by
        rw [List.all_cons, List.all_cons, isDigit_dashChar]
        congr 1
        exact all_map_dash rest _ isDigit_dashChar
      by_cases hdig : (c :: rest).all Char.isDigit = true
      · rw [if_pos (by rw [e3]; exact hdig), if_pos hdig]
        have e4 : dashChar c :: replaceDash rest = c :: rest :=
          replaceDash_digits_id hdig
        rw [e4]
        rfl
      · rw [if_neg (by rw [e3]; exact hdig), if_neg hdig]
        rfl

theorem parseLine_dash (l : Text) :
    parseLine (replaceDash l) = Option.map lkDash (parseLine l) := by
  unfold parseLine
  rw [trimText_dash]
  cases ht : trimText l with
  | nil => rfl
  | cons c rest =>
    rw [show replaceDash (c :: rest) = dashChar c :: replaceDash rest
      from rfl]
    dsimp only
    by_cases hb : c = '['
    · rw [if_pos ((dashChar_eq_iff (by decide) (by decide)).mpr hb),
        if_pos hb,
        show (replaceDash rest).reverse = replaceDash rest.reverse from
          (List.map_reverse _ _).symm]
      cases hrev : rest.reverse with
      | nil => rfl
      | cons d mid =>
        rw [show replaceDash (d :: mid) = dashChar d :: replaceDash mid
          from rfl]
        dsimp only
        by_cases hd : d = ']'
        · rw [if_pos ((dashChar_eq_iff (by decide) (by decide)).mpr hd),
            if_pos hd]
          dsimp only [Option.map, lkDash]
          exact congrArg (fun z => some (LineKind.sectionHead z))
            (List.map_reverse _ _).symm
        · rw [if_neg (fun hx => hd ((dashChar_eq_iff (by decide)
            (by decide)).mp hx)), if_neg hd]
          rfl
    · rw [if_neg (fun hx => hb ((dashChar_eq_iff (by decide)
        (by decide)).mp hx)), if_neg hb]
      rw [show (dashChar c :: replaceDash rest) = replaceDash (c :: rest)
        from rfl, splitFirstEq_dash]
      cases hs : splitFirstEq (c :: rest) with
      | none => rfl
      | some p =>
        obtain ⟨k, v⟩ := p
        dsimp only [Option.map]
        rw [trimText_dash]
        cases htk : trimText k with
        | nil => rfl
        | cons k0 ks =>
          rw [show replaceDash (k0 :: ks) = dashChar k0 :: replaceDash ks
            from rfl]
          dsimp only
          rw [trimText_dash, parseValue_dash]
          cases hv : parseValue (trimText v) with
          | none => rfl
          | some rv => rfl

theorem collectAssigns_dash (ls : List Text) :
    ∀ sec, collectAssigns (ls.map replaceDash) (replaceDash sec) =
      Option.map (List.map assignDash) (collectAssigns ls sec) := by
  induction ls with
  | nil => intro sec; rfl
  | cons l rest ih =>
    intro sec
    show collectAssigns (replaceDash l :: rest.map replaceDash)
      (replaceDash sec) = _
    rw [collectAssigns, collectAssigns, parseLine_dash]
    cases hp : parseLine l with
    | none => rfl
    | some lk =>
      cases lk with
      | blank => exact ih sec
      | sectionHead n => exact ih n
      | keyVal k v =>
        dsimp only [Option.map, lkDash]
        rw [ih sec]
        cases hc : collectAssigns rest sec with
        | none => rfl
        | some rest2 => rfl

theorem rawAssigns_dash (t : Text) :
    rawAssigns (replaceDash t) =
      Option.map (List.map assignDash) (rawAssigns t) := by
  unfold rawAssigns
  rw [splitLines_dash]
  exact collectAssigns_dash (splitLines t) []

theorem lookupAssign_mem {l : List Assign} {sec key : Text} {v : RawValue}
    (h : lookupAssign l sec key = some v) : ∃ a ∈ l, a.2.2 = v := by
  induction l with
  | nil => cases h
  | cons a rest ih =>
    obtain ⟨s, k, w⟩ := a
    rw [lookupAssign] at h
    split at h
    · cases h
      exact ⟨(s, k, v), List.mem_cons_self _ _, rfl⟩
    · rcases ih h with ⟨b, hb, hv⟩
      exact ⟨b, List.mem_cons_of_mem _ hb, hv⟩

theorem getStr_mapped_no_dash {l : List Assign} {sec key s0 : Text}
    (h : getStr (l.map assignDash) sec key = some s0) : '-' ∉ s0 := by
  unfold getStr at h
  split at h
  · rename_i s heq
    cases h
    rcases lookupAssign_mem heq with ⟨a, ha, hv⟩
    rcases List.mem_map.mp ha with ⟨b, _, rfl⟩
    obtain ⟨bs, bk, bv⟩ := b
    cases bv with
    | str u =>
      dsimp only [assignDash, rvDash] at hv
      injection hv with hv2
      rw [← hv2]
      exact dash_not_mem_replaceDash u
    | int n =>
      dsimp only [assignDash, rvDash] at hv
      cases hv
  · cases h

theorem buildConfig_fields {L : List Assign} {c : Config}
    (h : buildConfig L = .ok c) :
    getStr L secInText keyInFolder = some c.input_settings.input_folder ∧
    getStr L secInText keyInFile = some c.input_settings.input_file ∧
    getStr L secOutText keyOutFolder =
      some c.output_settings.output_folder ∧
    getStr L secOutText keyOutFile = some c.output_settings.output_file ∧
    getStr L secOutText keyWebsite =
      some c.output_settings.output_website := by
  unfold buildConfig at h
  split at h
  · split at h
    · cases h
      exact ⟨‹_›, ‹_›, ‹_›, ‹_›, ‹_›⟩
    · cases h
  · cases h

/-- An input-file and website value containing hyphens. -/
def hyphenValueConfigText : Text :=
  ("[input_settings]\n" ++
   "input_folder = \"input\"\n" ++
   "input_file = \"my-world.dat\"\n\n" ++
   "[output_settings]\n" ++
   "output_mode = 0\n" ++
   "output_folder = \"output\"\n" ++
   "output_file = \"localStorage.js\"\n" ++
   "output_website = \"https://my-site.example\"").toList

/-- The value the program actually loads for that file: the hyphens inside
the string values have been replaced along with everything else. -/
def hyphenValueConfigValue : Config :=
  ⟨⟨"input".toList, "my_world.dat".toList⟩,
   ⟨0, "output".toList, "localStorage.js".toList,
    "https://my_site.example".toList⟩⟩

/-- C3: the hyphen-to-underscore normalization is applied to the whole
configuration text before parsing, not only to keys: the assignment list
the parser sees is exactly the raw assignment list of the file with the
replacement applied to section names, keys and values alike; hence every
string field of a successfully loaded `Config` is hyphen-free, and a file
whose values contain `-` loads with those values rewritten to `_`. -/
theorem C3_dash_replacement_hits_values :
    (∀ t : Text, rawAssigns (replaceDash t) =
      Option.map (List.map assignDash) (rawAssigns t)) ∧
    (∀ (t : Text) (c : Config), loadConfig t = .ok c →
      '-' ∉ c.input_settings.input_folder ∧
      '-' ∉ c.input_settings.input_file ∧
      '-' ∉ c.output_settings.output_folder ∧
      '-' ∉ c.output_settings.output_file ∧
      '-' ∉ c.output_settings.output_website) ∧
    loadConfig hyphenValueConfigText = .ok hyphenValueConfigValue := by
  refine ⟨rawAssigns_dash, ?_, by decide⟩
  intro t c h
  unfold loadConfig tomlFromStr at h
  rw [rawAssigns_dash t] at h
  cases hr : rawAssigns t with
  | none =>
    rw [hr] at h
    cases h
  | some l =>
    rw [hr] at h
    dsimp only [Option.map] at h
    obtain ⟨h1, h2, h3, h4, h5⟩ := buildConfig_fields h
    exact ⟨getStr_mapped_no_dash h1, getStr_mapped_no_dash h2,
      getStr_mapped_no_dash h3, getStr_mapped_no_dash h4,
      getStr_mapped_no_dash h5⟩

/-- C4: two configuration texts that agree after hyphen normalization — in
particular one spelled with hyphenated keys and one with underscored
keys — load to identical `Config` values; concretely, the hyphen-keyed
default file and its underscore-keyed variant are different texts loading
to the same value. -/
theorem C4_key_spellings_equivalent :
    (∀ t1 t2 : Text, replaceDash t1 = replaceDash t2 →
      loadConfig t1 = loadConfig t2) ∧
    loadConfig defaultConfigText = .ok defaultConfigValue ∧
    loadConfig underscoreConfigText = .ok defaultConfigValue ∧
    defaultConfigText ≠ underscoreConfigText := by
  refine ⟨?_, by decide, by decide, by decide⟩
  intro t1 t2 h
  unfold loadConfig
  rw [h]

/-! ## The `u8` range of `output_mode` (C10) -/

theorem loadConfig_mode_le {t : Text} {c : Config}
    (h : loadConfig t = .ok c) : c.output_settings.output_mode ≤ 255 := by
  unfold loadConfig tomlFromStr at h
  cases hra : rawAssigns (replaceDash t) with
  | none =>
    rw [hra] at h
    cases h
  | some l =>
    rw [hra] at h
    dsimp only at h
    unfold buildConfig at h
    split at h
    · split at h
      · cases h
        assumption
      · cases h
    · cases h

/-- A configuration whose parsed `output_mode` integer exceeds 255 is a
deserialization failure (the field is a `u8`): the configuration never
loads, whatever the other fields are. -/
theorem mode_out_of_range_parse_error (t : Text) (l : List Assign) (n : Nat)
    (hra : rawAssigns (replaceDash t) = some l)
    (hlk : lookupAssign l secOutText keyMode = some (.int n))
    (hgt : 255 < n) :
    ∃ e : TomlErr, loadConfig t = .error e := by
  have hg : getInt l secOutText keyMode = some n := by
    unfold getInt
    rw [hlk]
  unfold loadConfig tomlFromStr
  rw [hra]
  dsimp only
  unfold buildConfig
  rw [hg]
  cases hA : getStr l secInText keyInFolder with
  | none => exact ⟨.missingField, rfl⟩
  | some f =>
    cases hB : getStr l secInText keyInFile with
    | none => exact ⟨.missingField, rfl⟩
    | some fi =>
      cases hC : getStr l secOutText keyOutFolder with
      | none => exact ⟨.missingField, rfl⟩
      | some of0 =>
        cases hD : getStr l secOutText keyOutFile with
        | none => exact ⟨.missingField, rfl⟩
        | some ofi =>
          cases hE : getStr l secOutText keyWebsite with
          | none => exact ⟨.missingField, rfl⟩
          | some w =>
            refine ⟨.modeOutOfRange, ?_⟩
            show (if n ≤ 255 then
              Except.ok (⟨⟨f, fi⟩, ⟨n, of0, ofi, w⟩⟩ : Config)
              else Except.error TomlErr.modeOutOfRange) =
              (Except.error TomlErr.modeOutOfRange : Except TomlErr Config)
            rw [if_neg (by omega)]

/-- A negative integer literal cannot survive the dash normalization: its
sign becomes `_` and the value token no longer parses. -/
theorem neg_value_token (ds : Text) :
    parseValue (replaceDash ('-' :: ds)) = none := by
  show parseValue ('_' :: replaceDash ds) = none
  simp only [parseValue]
  rw [if_neg (by decide)]
  have hdig : (('_' :: replaceDash ds).all Char.isDigit) = false := by
    rw [List.all_cons, show Char.isDigit '_' = false from rfl,
      Bool.false_and]
  rw [if_neg (by simp [hdig])]

theorem mem_printErr_throwRun {tr : List Ev} {fs : FS}
    {e0 e : GeneralError} (hclean : tr.all cleanEv = true)
    (h : Ev.printErr e ∈ (throwRun tr fs e0).trace) : e = e0 := by
  have h' : Ev.printErr e ∈ tr ++ uniformSuffix e0 := h
  rcases List.mem_append.mp h' with h1 | h1
  · have hc := List.all_eq_true.mp hclean _ h1
    simp [cleanEv, isErrEv] at hc
  · simp only [uniformSuffix, List.mem_cons, List.not_mem_nil,
      or_false] at h1
    rcases h1 with h2 | h2 | h2
    · injection h2
    · cases h2
    · cases h2

theorem not_mem_printErr_finishRun {tr : List Ev} {fs : FS}
    {e : GeneralError} (hclean : tr.all cleanEv = true)
    (h : Ev.printErr e ∈ (finishRun tr fs).trace) : False := by
  have h' : Ev.printErr e ∈ tr ++ [Ev.printOut promptMsg, Ev.readLine] := h
  rcases List.mem_append.mp h' with h1 | h1
  · have hc := List.all_eq_true.mp hclean _ h1
    simp [cleanEv, isErrEv] at hc
  · simp only [List.mem_cons, List.not_mem_nil, or_false] at h1
    rcases h1 with h2 | h2 <;> cases h2

theorem trPrep_clean2 {env : Env} {fs1 : FS} {p1 : Text} {fs2 : FS}
    {ev1 : List Ev} {p2 : Text} {fs3 : FS} {ev2 : List Ev}
    (h1 : ensureDirStep env fs1 p1 = .ok (fs2, ev1))
    (h2 : ensureDirStep env fs2 p2 = .ok (fs3, ev2)) :
    (trPrep ev1 ev2).all cleanEv = true :=
  trPrep_clean (ensureDirStep_clean h1) (ensureDirStep_clean h2)

theorem trLoad_clean2 {env : Env} {fs1 : FS} {p1 : Text} {fs2 : FS}
    {ev1 : List Ev} {p2 : Text} {fs3 : FS} {ev2 : List Ev} {q : Text}
    (h1 : ensureDirStep env fs1 p1 = .ok (fs2, ev1))
    (h2 : ensureDirStep env fs2 p2 = .ok (fs3, ev2)) :
    (trLoad ev1 ev2 q).all cleanEv = true :=
  trLoad_clean (ensureDirStep_clean h1) (ensureDirStep_clean h2)

theorem trConv_clean2 {env : Env} {fs1 : FS} {p1 : Text} {fs2 : FS}
    {ev1 : List Ev} {p2 : Text} {fs3 : FS} {ev2 : List Ev} {q : Text}
    (h1 : ensureDirStep env fs1 p1 = .ok (fs2, ev1))
    (h2 : ensureDirStep env fs2 p2 = .ok (fs3, ev2)) :
    (trConv ev1 ev2 q).all cleanEv = true :=
  trConv_clean (ensureDirStep_clean h1) (ensureDirStep_clean h2)

theorem trSer_clean2 {env : Env} {fs1 : FS} {p1 : Text} {fs2 : FS}
    {ev1 : List Ev} {p2 : Text} {fs3 : FS} {ev2 : List Ev} {q : Text}
    (h1 : ensureDirStep env fs1 p1 = .ok (fs2, ev1))
    (h2 : ensureDirStep env fs2 p2 = .ok (fs3, ev2)) :
    (trSer ev1 ev2 q).all cleanEv = true :=
  trSer_clean (ensureDirStep_clean h1) (ensureDirStep_clean h2)

theorem trSerW_clean2 {env : Env} {fs1 : FS} {p1 : Text} {fs2 : FS}
    {ev1 : List Ev} {p2 : Text} {fs3 : FS} {ev2 : List Ev} {q : Text}
    {w : Ev} (h1 : ensureDirStep env fs1 p1 = .ok (fs2, ev1))
    (h2 : ensureDirStep env fs2 p2 = .ok (fs3, ev2))
    (hw : cleanEv w = true) :
    (trSer ev1 ev2 q ++ [w]).all cleanEv = true :=
  append_one_clean (trSer_clean (ensureDirStep_clean h1)
    (ensureDirStep_clean h2)) hw

/-- Whenever a run rejects the delivery mode, the offending value was an
in-range `u8` outside {0,1}: `InvalidMode` carries only values 2..=255. -/
theorem invalidMode_in_range (env : Env) (v : Nat)
    (h : Ev.printErr (.InvalidMode v) ∈ (run env).trace) :
    2 ≤ v ∧ v ≤ 255 := by
  revert h
  unfold run deliveryOutcome
  repeat' split
  all_goals intro h
  all_goals first
    | (rename_i heqb
       obtain ⟨n, rfl⟩ := bootstrap_err_shape heqb
       cases mem_printErr_throwRun (by exact rfl) h)
    | cases mem_printErr_throwRun (by exact ensureDirStep_clean ‹_›) h
    | cases mem_printErr_throwRun (by exact trPrep_clean2 ‹_› ‹_›) h
    | cases mem_printErr_throwRun (by exact trLoad_clean2 ‹_› ‹_›) h
    | cases mem_printErr_throwRun (by exact trConv_clean2 ‹_› ‹_›) h
    | cases mem_printErr_throwRun (by exact trSerW_clean2 ‹_› ‹_› rfl) h
    | exact (not_mem_printErr_finishRun
        (by exact trSerW_clean2 ‹_› ‹_› rfl) h).elim
    | (have he := mem_printErr_throwRun
        (by exact trSer_clean2 ‹_› ‹_›) h
       injection he with hv
       have hle := loadConfig_mode_le ‹_›
       omega)
    | cases mem_printErr_throwRun (by exact rfl) h
    | cases h

/-- The underscore-keyed default file with `output_mode = 300`. -/
def bigModeConfigText : Text :=
  ("[input_settings]\n" ++
   "input_folder = \"input\"\n" ++
   "input_file = \"level.dat\"\n\n" ++
   "[output_settings]\n" ++
   "output_mode = 300\n" ++
   "output_folder = \"output\"\n" ++
   "output_file = \"localStorage.js\"\n" ++
   "output_website = \"https://classic.minecraft.net\"").toList

/-- The underscore-keyed default file with `output_mode = -5`. -/
def negModeConfigText : Text :=
  ("[input_settings]\n" ++
   "input_folder = \"input\"\n" ++
   "input_file = \"level.dat\"\n\n" ++
   "[output_settings]\n" ++
   "output_mode = -5\n" ++
   "output_folder = \"output\"\n" ++
   "output_file = \"localStorage.js\"\n" ++
   "output_website = \"https://classic.minecraft.net\"").toList

/-- C10: because `output_mode` is deserialized into an 8-bit unsigned
integer, a configuration whose `output_mode` is out of the `u8` range
fails at the config-parse stage with the config-parse (`toml`) error
kind: an integer above 255 fails the range check whatever the rest of the
file, a negative literal stops being a number once its `-` is normalized
to `_`, and concretely `output_mode = 300` and `output_mode = -5` both
fail to load.  `InvalidMode` is reachable only for the in-range values
2..=255. -/
theorem C10_mode_u8_range_behavior :
    (∀ (t : Text) (l : List Assign) (n : Nat),
      rawAssigns (replaceDash t) = some l →
      lookupAssign l secOutText keyMode = some (.int n) → 255 < n →
      ∃ e : TomlErr, loadConfig t = .error e) ∧
    (∀ ds : Text, parseValue (replaceDash ('-' :: ds)) = none) ∧
    loadConfig bigModeConfigText = .error .modeOutOfRange ∧
    loadConfig negModeConfigText = .error .badLine ∧
    (∀ (env : Env) (v : Nat),
      Ev.printErr (.InvalidMode v) ∈ (run env).trace →
      2 ≤ v ∧ v ≤ 255) :=
  ⟨mode_out_of_range_parse_error, neg_value_token, by decide, by decide,
    invalidMode_in_range⟩

/-! ## Concrete witness environments and witnesses -/

/-- A malformed configuration file (no `=` on the single line). -/
def badConfigText : Text := "not a toml config".toList

/-- Run environment whose configuration file fails to parse. -/
def envTomlErr : Env :=
  ⟨[(cfgPath, Entry.file badConfigText)], .ok (), true, fun _ => .ok (),
   .ok 0, .ok 0, ([], []), .ok (), .ok ()⟩

theorem C2_uniform_fatal_error_behavior_witness :
    (run envTomlErr).res = .exit 1 ∧
    ∃ pre, (run envTomlErr).trace = pre ++
      uniformSuffix (.TOMLError .badLine) ∧ pre.all cleanEv = true :=
  (C2_uniform_fatal_error_behavior envTomlErr).1
    (.TOMLError .badLine) (by decide)

theorem C3_dash_replacement_hits_values_witness :
    '-' ∉ hyphenValueConfigValue.input_settings.input_folder ∧
    '-' ∉ hyphenValueConfigValue.input_settings.input_file ∧
    '-' ∉ hyphenValueConfigValue.output_settings.output_folder ∧
    '-' ∉ hyphenValueConfigValue.output_settings.output_file ∧
    '-' ∉ hyphenValueConfigValue.output_settings.output_website :=
  C3_dash_replacement_hits_values.2.1 hyphenValueConfigText
    hyphenValueConfigValue (by decide)

theorem C4_key_spellings_equivalent_witness :
    loadConfig defaultConfigText = loadConfig underscoreConfigText :=
  C4_key_spellings_equivalent.1 defaultConfigText underscoreConfigText
    (by decide)

/-- The underscore default file with `output_mode = 2`. -/
def mode2ConfigText : Text :=
  ("[input_settings]\n" ++
   "input_folder = \"input\"\n" ++
   "input_file = \"level.dat\"\n\n" ++
   "[output_settings]\n" ++
   "output_mode = 2\n" ++
   "output_folder = \"output\"\n" ++
   "output_file = \"localStorage.js\"\n" ++
   "output_website = \"https://classic.minecraft.net\"").toList

def mode2ConfigValue : Config :=
  ⟨⟨"input".toList, "level.dat".toList⟩,
   ⟨2, "output".toList, "localStorage.js".toList,
    "https://classic.minecraft.net".toList⟩⟩

/-- A ready-to-run filesystem for the mode-2 configuration. -/
def fsMode2 : FS :=
  [(cfgPath, Entry.file mode2ConfigText),
   ("input".toList, Entry.dir),
   ("input".toList ++ slash ++ "level.dat".toList, Entry.file ['x']),
   ("output".toList, Entry.dir)]

def envMode2 : Env :=
  ⟨fsMode2, .ok (), true, fun _ => .ok (), .ok 0, .ok 0,
   ("P".toList, "M".toList), .ok (), .ok ()⟩

theorem C5_invalid_mode_uniformly_rejected_witness :
    (run envMode2).res = .exit 1 ∧
    Ev.printErr (.InvalidMode 2) ∈ (run envMode2).trace := by
  have h := C5_invalid_mode_uniformly_rejected envMode2 mode2ConfigText
    mode2ConfigValue (by decide) rfl (by decide) (fun _ => rfl)
    (by decide) ⟨0, rfl⟩ ⟨0, rfl⟩ (by decide) (by decide)
  exact ⟨h.1, h.2.1⟩

/-- A run whose configuration is fine but whose input file is absent. -/
def envMissing : Env :=
  ⟨[(cfgPath, Entry.file underscoreConfigText)], .ok (), true,
   fun _ => .ok (), .ok 0, .ok 0, ("P".toList, "M".toList), .ok (),
   .ok ()⟩

theorem C6_missing_input_fails_before_loader_witness :
    (run envMissing).res = .exit 1 ∧
    Ev.printErr (.MissingFile (inputPath defaultConfigValue)) ∈
      (run envMissing).trace ∧
    (∀ p, Ev.loadLevel p ∉ (run envMissing).trace) :=
  C6_missing_input_fails_before_loader envMissing underscoreConfigText
    defaultConfigValue (by decide) rfl (by decide) (fun _ => rfl)
    (by decide) (by decide)

/-- A direct-mode run with everything in place. -/
def fsStore : FS :=
  [(cfgPath, Entry.file underscoreConfigText),
   ("input".toList, Entry.dir),
   ("input".toList ++ slash ++ "level.dat".toList, Entry.file ['x']),
   ("output".toList, Entry.dir)]

def envStoreOk : Env :=
  ⟨fsStore, .ok (), true, fun _ => .ok (), .ok 0, .ok 0,
   ("P".toList, "M".toList), .ok (), .ok ()⟩

theorem C7_delivery_after_serialization_single_branch_witness :
    ∃ a b, (run envStoreOk).trace = a ++ Ev.serialize :: b ∧
      a.all (fun e => !isWriteEv e) = true :=
  (C7_delivery_after_serialization_single_branch envStoreOk).1 (by decide)

/-- Oracle environment with an empty filesystem, used for the step-level
witnesses. -/
def envB : Env :=
  ⟨[], .ok (), true, fun _ => .ok (), .ok 0, .ok 0,
   ([], []), .ok (), .ok ()⟩

def fsWithCfg : FS := [(cfgPath, Entry.file [])]

theorem C8_bootstrap_create_only_when_absent_witness :
    bootstrapStep envB fsWithCfg = (fsWithCfg, none) ∧
    bootstrapStep envB [] =
      (fsSet [] cfgPath (.file defaultConfigText), none) :=
  ⟨C8_bootstrap_create_only_when_absent.1 envB fsWithCfg (by decide),
   (C8_bootstrap_create_only_when_absent.2 envB [] (by decide) rfl).1⟩

def dirPath : Text := "output".toList

def fsWithDir : FS := [(dirPath, Entry.dir)]

theorem C9_directory_ensure_idempotent_witness :
    ensureDirStep envB fsWithDir dirPath = .ok (fsWithDir, []) ∧
    ensureDirStep envB [] dirPath =
      .ok (fsSet [] dirPath .dir, [.createDir dirPath]) :=
  ⟨C9_directory_ensure_idempotent.1 envB fsWithDir dirPath (by decide),
   C9_directory_ensure_idempotent.2.2.1 envB [] dirPath (by decide) rfl⟩

/-- A one-key configuration with an out-of-range `output_mode`. -/
def tinyBigModeText : Text :=
  "[output_settings]\noutput_mode = 999".toList

def envMode2b : Env :=
  ⟨fsMode2, .ok (), true, fun _ => .ok (), .ok 0, .ok 0,
   ("P".toList, "M".toList), .ok (), .ok ()⟩

theorem C10_mode_u8_range_behavior_witness :
    (∃ e : TomlErr, loadConfig tinyBigModeText = .error e) ∧
    (2 ≤ 2 ∧ 2 ≤ 255) :=
  ⟨C10_mode_u8_range_behavior.1 tinyBigModeText
      [(secOutText, keyMode, RawValue.int 999)] 999
      (by decide) (by decide) (by decide),
   C10_mode_u8_range_behavior.2.2.2.2 envMode2b 2 (by decide)⟩

end CTI
